import Mathlib

/-!
Verification development for the WORLDSIM tick engine.

This file gives a shallow embedding, in Lean 4, of the ledger-mutating
parts of the simulation engine: the per-tick produce/consume step, internal
policy effects, treaty enforcement and trust adjustment, the climate shock
engine, direct trades, heuristic trade matching, welfare-driven migration,
the GDP/welfare recompute, and the assembly vote tally.  Python integers
are modelled as `Int`, Python floats as `ℚ`, Python dicts either as total
functions (region maps keyed by the fixed state-code set) or as
association lists (the climate engine's `active_events` dict), and
exceptions as `Except`.  External collaborators (the FinOps analysis
capability, the Governor advisory capability, Firestore persistence and
the random source of the climate engine) are universally quantified
oracle inputs, matching their treatment as external interfaces.
-/

namespace Worldsim

/-- The four resource kinds tracked per region. -/
inductive Res : Type
  | water | energy | food | tech
deriving DecidableEq, Repr

/-- Loop order `["water", "energy", "food", "tech"]` used by the engine. -/
def resList : List Res := [.water, .energy, .food, .tech]

/-- The ten fixed state codes (`STATE_CODES` in `config.py`). -/
inductive Code : Type
  | PB | MH | TN | KA | GJ | UP | BR | WB | RJ | MP
deriving DecidableEq, Repr, Fintype

/-- `STATE_CODES`, in its configured iteration order. -/
def STATE_CODES : List Code := [.PB, .MH, .TN, .KA, .GJ, .UP, .BR, .WB, .RJ, .MP]

/-- Python `int(x)` truncation toward zero, on rationals. -/
def pyInt (q : ℚ) : Int := if 0 ≤ q then ⌊q⌋ else -⌊-q⌋

/-- Python `round(x, 1)`: round to one decimal digit, ties to even. -/
def pyRound1 (q : ℚ) : ℚ :=
  let x := q * 10
  let f : Int := ⌊x⌋
  let frac := x - f
  let r : Int :=
    if frac < 1/2 then f
    else if 1/2 < frac then f + 1
    else if f % 2 = 0 then f else f + 1
  (r : ℚ) / 10

/- ── Configuration constants (`config.py`) ─────────────────────── -/

def LLM_PERIODIC_INTERVAL : Int := 10
def FEDERAL_ASSEMBLY_MAJORITY : ℚ := 6/10
def CLIMATE_MIN_INTERVAL : Int := 5
def MAX_ACTIVE_TREATIES_PER_STATE : Nat := 5
def TREATY_BREACH_TRUST_PENALTY : Int := 15
def TREATY_HONOR_TRUST_BONUS : Int := 2
def REWARD_LAMBDA : ℚ := 1/2
def WELFARE_MIGRATION_THRESHOLD : ℚ := 35
def MIGRATION_RATE : ℚ := 2/100

/-- `RESOURCE_MAX` normalization table. -/
def RESOURCE_MAX : Res → Int
  | .water => 15000
  | .energy => 15000
  | .food => 15000
  | .tech => 12000

/- ── Region ledger ─────────────────────────────────────────────── -/

/-- The demographics sub-record of a region. -/
structure Demographics where
  workforce_efficiency : ℚ
  unrest_level : ℚ
  migration_pressure : ℚ
deriving DecidableEq

/-- The `internal_policies` levers read by the policy step. -/
structure Policies where
  food_subsidy : ℚ
  water_tax : ℚ
deriving DecidableEq

/-- One region's mutable ledger entry. -/
structure Region where
  resources : Res → Int
  resource_generation_rates : Res → Int
  resource_consumption_rates : Res → Int
  internal_policies : Policies
  gdp_score : ℚ
  welfare_score : ℚ
  trust_score : ℚ
  population : Int
  demographics : Demographics

/-- The world ledger: one region per state code (`regions_data`). -/
def World : Type := Code → Region

/-- Replace one region of the world. -/
def updateRegion (w : World) (c : Code) (r : Region) : World :=
  Function.update w c r

/-- Write one resource value of one region (`_update_region_resources_local`). -/
def setResource (w : World) (c : Code) (res : Res) (v : Int) : World :=
  updateRegion w c { w c with resources := Function.update (w c).resources res v }

/-- Write one region's population. -/
def setPopulation (w : World) (c : Code) (v : Int) : World :=
  updateRegion w c { w c with population := v }

/- ── Step 1: produce and consume (`_step_produce_consume`) ─────── -/

/-- `new = max(0, current + generation − consumption)` per resource. -/
def newResourcesOf (r : Region) : Res → Int := fun res =>
  max 0 (r.resources res + r.resource_generation_rates res
           - r.resource_consumption_rates res)

/-- Step 1 over the whole ledger. -/
def step_produce_consume (w : World) : World := fun c =>
  { w c with resources := newResourcesOf (w c) }

/- ── Step 2: internal policies (`_step_apply_policies`) ────────── -/

/-- Food subsidy: boosts food stock by a truncated fraction and charges
half the bonus as an energy cost, clamped at zero. -/
def foodSubsidyEffect (food_sub : ℚ) (res : Res → Int) : Res → Int :=
  if 0 < food_sub then
    let food_bonus := pyInt ((res .food : ℚ) * food_sub * (1/10))
    let energy_cost := pyInt ((food_bonus : ℚ) * (1/2))
    let resA := Function.update res .food (res .food + food_bonus)
    Function.update resA .energy (max 0 (resA .energy - energy_cost))
  else res

/-- Water tax: adds a truncated fraction of stored water. -/
def waterTaxEffect (water_tax : ℚ) (res : Res → Int) : Res → Int :=
  if 0 < water_tax then
    Function.update res .water
      (res .water + pyInt ((res .water : ℚ) * water_tax * (1/20)))
  else res

/-- Policy effects on one region's resources: the food subsidy, then the
water tax on the updated stocks. -/
def applyPoliciesRegion (r : Region) : Region :=
  let res2 := waterTaxEffect r.internal_policies.water_tax
    (foodSubsidyEffect r.internal_policies.food_subsidy r.resources)
  { r with resources := res2 }

/-- Step 2 over the whole ledger. -/
def step_apply_policies (w : World) : World := fun c => applyPoliciesRegion (w c)

/- ── Direct trades (`_execute_direct_trade`) ───────────────────── -/

/-- Transfer one offered item from `src` to `dst`, clamped to the
sender's current stock; the receiver's side is a plain addition. -/
def tradeGiveItem (src dst : Code) (w : World) (item : Res × Int) : World :=
  let res := item.1
  let amount := min item.2 ((w src).resources res)
  let w1 := setResource w src res (max 0 ((w src).resources res - amount))
  setResource w1 dst res ((w1 dst).resources res + amount)

/-- `_execute_direct_trade`: offered items flow `from → to`, then
requested items flow `to → from`, each clamped to the sender's stock. -/
def execute_direct_trade (from_code to_code : Code)
    (offering requesting : List (Res × Int)) (w : World) : World :=
  let w1 := offering.foldl (tradeGiveItem from_code to_code) w
  requesting.foldl (tradeGiveItem to_code from_code) w1

/- ── Step 8: migration (`_step_migration`) ─────────────────────── -/

/-- One migration record. -/
structure Migration where
  mfrom : Code
  mto : Code
  migrants : Int
deriving DecidableEq, Repr

/-- Find the destination with the strictly highest welfare score among the
other regions (first seen wins on ties), as in the source's scan. -/
def bestDestination (w : World) (c : Code) : Option Code × ℚ :=
  STATE_CODES.foldl
    (fun acc dest =>
      if dest = c then acc
      else
        let dw := (w dest).welfare_score
        if acc.2 < dw then (some dest, dw) else acc)
    (none, 0)

/-- Migration decision and transfer for one source region. -/
def migrateOne (st : World × List Migration) (c : Code) : World × List Migration :=
  let w := st.1
  let welfare := (w c).welfare_score
  if welfare < WELFARE_MIGRATION_THRESHOLD then
    match bestDestination w c with
    | (some d, bw) =>
      if welfare < bw then
        let pop := (w c).population
        let migrants := pyInt ((pop : ℚ) * MIGRATION_RATE)
        if 0 < migrants then
          let w1 := setPopulation w c (pop - migrants)
          let w2 := setPopulation w1 d ((w1 d).population + migrants)
          (w2, st.2 ++ [⟨c, d, migrants⟩])
        else st
      else st
    | (none, _) => st
  else st

/-- Step 8 over the whole ledger, in `STATE_CODES` order. -/
def step_migration (w : World) : World × List Migration :=
  STATE_CODES.foldl migrateOne (w, [])

/- ── Step 10: rewards / GDP / welfare (`_step_rewards`) ────────── -/

/-- The GDP score recomputed for one region. -/
def gdpOf (r : Region) : ℚ :=
  let pop := r.population
  let workforce := r.demographics.workforce_efficiency
  let pop_millions : ℚ := max 1 ((pop : ℚ) / 1000000)
  let resource_index : ℚ :=
    (r.resources .tech : ℚ) * (4/1000) +
    (r.resources .energy : ℚ) * (2/1000) +
    (r.resources .food : ℚ) * (1/1000) +
    (r.resources .water : ℚ) * (1/1000)
  pyRound1 (min 100 (max 0 (resource_index / pop_millions * 10 * workforce)))

/-- The welfare score recomputed for one region. -/
def welfareOf (r : Region) : ℚ :=
  let foodAdequacy : ℚ :=
    min 1 ((r.resources .food : ℚ) / max 1 ((RESOURCE_MAX .food : ℚ) * (3/10)))
  let waterAdequacy : ℚ :=
    min 1 ((r.resources .water : ℚ) / max 1 ((RESOURCE_MAX .water : ℚ) * (2/10)))
  let unrest := r.demographics.unrest_level
  pyRound1 (min 100 (max 0 (foodAdequacy * 40 + waterAdequacy * 40 + (1 - unrest) * 20)))

/-- The unrest self-adjustment driven by the freshly computed welfare. -/
def newUnrestOf (r : Region) : ℚ :=
  let welfare := welfareOf r
  let unrest := r.demographics.unrest_level
  if welfare < 40 then min 1 (unrest + 1/50)
  else if 70 < welfare then max 0 (unrest - 1/100)
  else unrest

/-- Step 10 over the whole ledger: store gdp, welfare and new unrest. -/
def step_rewards (w : World) : World := fun c =>
  let r := w c
  { r with
    gdp_score := gdpOf r
    welfare_score := welfareOf r
    demographics := { r.demographics with unrest_level := newUnrestOf r } }

/- ── Treaty manager (`treaty_manager.py`) ──────────────────────── -/

/-- An entry of a treaty's append-only breach log. -/
structure BreachLog where
  tick : Int
  breacher : Code
  resource : Res
  promised : Int
  available : Int
deriving DecidableEq, Repr

/-- A breach record inside one enforcement result. -/
structure BreachRec where
  breacher : Code
  resource : Res
  shortfall : Int
deriving DecidableEq, Repr

/-- A delivered-transfer record inside one enforcement result. -/
structure TransferRec where
  giver : Code
  receiver : Code
  resource : Res
  amount : Int
deriving DecidableEq, Repr

/-- A standing multi-tick exchange agreement. -/
structure Treaty where
  treaty_id : Nat
  from_region : Code
  to_region : Code
  per_tick_offer : List (Res × Int)
  per_tick_request : List (Res × Int)
  duration_ticks : Int
  ticks_remaining : Int
  is_active : Bool
  breaches : List BreachLog
  created_tick : Int
deriving DecidableEq

/-- The per-treaty result of one tick of enforcement. -/
structure EnforceResult where
  treaty_id : Nat
  from_region : Code
  to_region : Code
  transfers : List TransferRec
  rbreaches : List BreachRec
deriving DecidableEq

/-- Threaded state while the two legs of one treaty are enforced. -/
structure LegState where
  world : World
  transfers : List TransferRec
  rbreaches : List BreachRec
  tbreaches : List BreachLog

/-- Enforce one promised item of one leg: deliver in full when the giver's
current stock covers the promise, otherwise record a breach (shortfall =
promised − available) and transfer nothing. -/
def enforceItem (giver receiver : Code) (tickN : Int)
    (s : LegState) (item : Res × Int) : LegState :=
  let resource := item.1
  let amount := item.2
  let available := (s.world giver).resources resource
  if amount ≤ available then
    let w1 := setResource s.world giver resource (available - amount)
    let to_current := (w1 receiver).resources resource
    let w2 := setResource w1 receiver resource (to_current + amount)
    { s with world := w2
             transfers := s.transfers ++ [⟨giver, receiver, resource, amount⟩] }
  else
    { s with
      tbreaches := s.tbreaches ++ [⟨tickN, giver, resource, amount, available⟩]
      rbreaches := s.rbreaches ++ [⟨giver, resource, amount - available⟩] }

/-- `_enforce_single`: the from-leg, then the to-leg against the
post-first-leg stock. -/
def enforce_single (t : Treaty) (w : World) (tickN : Int) :
    World × EnforceResult × Treaty :=
  let s0 : LegState := ⟨w, [], [], []⟩
  let s1 := t.per_tick_offer.foldl (enforceItem t.from_region t.to_region tickN) s0
  let s2 := t.per_tick_request.foldl (enforceItem t.to_region t.from_region tickN) s1
  (s2.world,
   ⟨t.treaty_id, t.from_region, t.to_region, s2.transfers, s2.rbreaches⟩,
   { t with breaches := t.breaches ++ s2.tbreaches })

/-- The treaty manager's mutable state. -/
structure TreatyManagerState where
  active_treaties : List Treaty
  expired_treaties : List Treaty
  treaty_counter : Nat

/-- `create_treaty`: refused (no treaty) when either party already
participates in the configured maximum number of active treaties. -/
def create_treaty (m : TreatyManagerState) (from_region to_region : Code)
    (offer request : List (Res × Int)) (duration : Int) (tickN : Int) :
    TreatyManagerState × Option Treaty :=
  let from_count := (m.active_treaties.filter
    (fun t => t.from_region = from_region ∨ t.to_region = from_region)).length
  let to_count := (m.active_treaties.filter
    (fun t => t.from_region = to_region ∨ t.to_region = to_region)).length
  if MAX_ACTIVE_TREATIES_PER_STATE ≤ from_count then (m, none)
  else if MAX_ACTIVE_TREATIES_PER_STATE ≤ to_count then (m, none)
  else
    let counter := m.treaty_counter + 1
    let t : Treaty :=
      ⟨counter, from_region, to_region, offer, request, duration, duration,
       true, [], tickN⟩
    ({ m with treaty_counter := counter,
              active_treaties := m.active_treaties ++ [t] }, some t)

/-- Threaded state of `enforce_treaties` over the active list. -/
structure EnforceFold where
  world : World
  results : List EnforceResult
  stillActive : List Treaty
  newlyExpired : List Treaty

/-- Per-treaty body of `enforce_treaties`: skip inactive entries, enforce,
decrement `ticks_remaining`, and archive on reaching zero. -/
def enforceStep (tickN : Int) (s : EnforceFold) (t : Treaty) : EnforceFold :=
  if t.is_active then
    let es := enforce_single t s.world tickN
    let t2 : Treaty := { es.2.2 with ticks_remaining := es.2.2.ticks_remaining - 1 }
    if t2.ticks_remaining ≤ 0 then
      { world := es.1, results := s.results ++ [es.2.1],
        stillActive := s.stillActive,
        newlyExpired := s.newlyExpired ++ [{ t2 with is_active := false }] }
    else
      { world := es.1, results := s.results ++ [es.2.1],
        stillActive := s.stillActive ++ [t2],
        newlyExpired := s.newlyExpired }
  else
    { s with stillActive := s.stillActive ++ [t] }

/-- `enforce_treaties` over one tick. -/
def enforce_treaties (m : TreatyManagerState) (w : World) (tickN : Int) :
    TreatyManagerState × World × List EnforceResult :=
  let s := m.active_treaties.foldl (enforceStep tickN) ⟨w, [], [], []⟩
  ({ m with active_treaties := s.stillActive,
            expired_treaties := m.expired_treaties ++ s.newlyExpired },
   s.world, s.results)

/-- Add `v` to the adjustment of one region. -/
def bumpAdj (adj : Code → Int) (c : Code) (v : Int) : Code → Int :=
  Function.update adj c (adj c + v)

/-- Trust contribution of a single enforcement result: each breach costs
its breacher the penalty; a breach-free result rewards both parties. -/
def applyResultAdj (adj : Code → Int) (result : EnforceResult) : Code → Int :=
  if result.rbreaches = [] then
    bumpAdj (bumpAdj adj result.from_region TREATY_HONOR_TRUST_BONUS)
      result.to_region TREATY_HONOR_TRUST_BONUS
  else
    result.rbreaches.foldl
      (fun a b => bumpAdj a b.breacher (-TREATY_BREACH_TRUST_PENALTY)) adj

/-- `calculate_trust_adjustments` over the whole result list (absent keys
read as zero, as the orchestrator applies only present keys). -/
def calculate_trust_adjustments (results : List EnforceResult) : Code → Int :=
  results.foldl applyResultAdj (fun _ => 0)

/-- Contribution of one result alone, starting from the zero map. -/
def trustContribution (result : EnforceResult) : Code → Int :=
  applyResultAdj (fun _ => 0) result

/-- The key set of the adjustments dict: the parties of each result
(created by `setdefault`); only their trust scores are rewritten. -/
def adjustedParties (results : List EnforceResult) : List Code :=
  results.foldl (fun acc r => acc ++ [r.from_region, r.to_region]) []

/-- Step 3 (`_step_enforce_treaties`): enforce all treaties, then apply the
trust adjustments of the parties involved, clamped into `[0, 100]`. -/
def step_enforce_treaties (m : TreatyManagerState) (w : World) (tickN : Int) :
    TreatyManagerState × World × List EnforceResult :=
  if m.active_treaties = [] then (m, w, [])
  else
    let (m1, w1, results) := enforce_treaties m w tickN
    let adj := calculate_trust_adjustments results
    let w2 : World := fun c =>
      if (adjustedParties results).contains c then
        { w1 c with
          trust_score := max 0 (min 100 ((w1 c).trust_score + (adj c : ℚ))) }
      else w1 c
    (m1, w2, results)

/- ── Climate engine (`climate_engine.py`) ──────────────────────── -/

/-- The fixed catalog of named climate events. -/
inductive EventId : Type
  | Drought_RJ | Cyclone_WB | Flood_BR | Heatwave_UP
  | Monsoon_Failure_TN | Industrial_Accident_GJ | Kaveri_Dispute_KA_TN
deriving DecidableEq, Repr, Fintype

/-- Hard-coded event durations from `_trigger_event`. -/
def eventDuration : EventId → Int
  | .Drought_RJ => 10
  | .Cyclone_WB => 8
  | .Flood_BR => 6
  | .Heatwave_UP => 5
  | .Monsoon_Failure_TN => 12
  | .Industrial_Accident_GJ => 7
  | .Kaveri_Dispute_KA_TN => 15

/-- Hard-coded event target regions from `_trigger_event`. -/
def eventTarget : EventId → Code
  | .Drought_RJ => .RJ
  | .Cyclone_WB => .WB
  | .Flood_BR => .BR
  | .Heatwave_UP => .UP
  | .Monsoon_Failure_TN => .TN
  | .Industrial_Accident_GJ => .GJ
  | .Kaveri_Dispute_KA_TN => .KA

/-- Dict lookup on the `active_events` association list. -/
def dictGet (l : List (EventId × Int)) (k : EventId) : Option Int :=
  match l with
  | [] => none
  | (k1, v) :: rest => if k1 = k then some v else dictGet rest k

/-- Dict assignment: replace the value when the key is present, append
otherwise (Python dict write). -/
def dictSet (l : List (EventId × Int)) (k : EventId) (v : Int) :
    List (EventId × Int) :=
  if (l.map Prod.fst).contains k then
    l.map (fun p => if p.1 = k then (k, v) else p)
  else l ++ [(k, v)]

/-- The climate engine's mutable state. -/
structure ClimateState where
  last_event_tick : Int
  active_events : List (EventId × Int)

/-- Fresh engine state: `last_event_tick = -CLIMATE_MIN_INTERVAL`. -/
def climateInit : ClimateState := ⟨-CLIMATE_MIN_INTERVAL, []⟩

/-- Per-resource impact detail of `trigger_climate_event`
(`firestore_helpers.py`): loss is a truncated fraction of the current
stock and the stored value is clamped at zero. -/
structure ImpactDetail where
  before : Int
  lost : Int
  after : Int
deriving DecidableEq, Repr

/-- The impact report returned by the persistence collaborator's
`trigger_climate_event`. -/
structure ImpactReport where
  impacts : List (Res × ImpactDetail)
deriving DecidableEq, Repr

/-- The persistence-side data a trigger reads: the target region's stored
resource snapshot and the event's fractional `resource_impact` profile. -/
structure FsSnapshot where
  current : Res → Int
  factors : List (Res × ℚ)

/-- `trigger_climate_event`'s resource loop:
`loss = int(abs(current * factor)); new = max(0, current − loss)`. -/
def triggerImpactReport (fs : FsSnapshot) : ImpactReport :=
  ⟨fs.factors.map (fun p =>
    let current := fs.current p.1
    let loss := pyInt |(current : ℚ) * p.2|
    (p.1, ⟨current, loss, max 0 (current - loss)⟩))⟩

/-- Record type of the climate engine's per-tick event list. -/
inductive ClimEvent : Type
  | TRIGGERED (event_id : EventId) (target : Code) (duration : Int)
      (impact : Option ImpactReport)
  | EXPIRED (event_id : EventId)
deriving DecidableEq

/-- `_trigger_event`: register the catalog duration for the event
(overwriting any existing entry) and build the trigger record, with the
impact report present exactly when the persistence collaborator is. -/
def trigger_event (s : ClimateState) (e : EventId) (fs : Option FsSnapshot) :
    ClimateState × ClimEvent :=
  ({ s with active_events := dictSet s.active_events e (eventDuration e) },
   .TRIGGERED e (eventTarget e) (eventDuration e) (fs.map triggerImpactReport))

/-- `force_trigger`: delegate directly to `_trigger_event`. -/
def force_trigger (s : ClimateState) (e : EventId) (fs : Option FsSnapshot) :
    ClimateState × ClimEvent :=
  trigger_event s e fs

/-- The triggering phase of one climate tick: when the minimum spacing is
met, the random probability check succeeded (`draw`, an oracle input),
and the weighted random selection (`choice`, an oracle input; `none` when
no candidate remains) names an event that is not already active, trigger
it and remember the tick. -/
def climate_trigger_phase (s : ClimateState) (current_tick : Int) (draw : Bool)
    (choice : Option EventId) (fs : Option FsSnapshot) :
    ClimateState × List ClimEvent :=
  if CLIMATE_MIN_INTERVAL ≤ current_tick - s.last_event_tick ∧ draw then
    match choice with
    | some e =>
      if dictGet s.active_events e = none then
        let (s', rec') := trigger_event s e fs
        ({ s' with last_event_tick := current_tick }, [rec'])
      else (s, [])
    | none => (s, [])
  else (s, [])

/-- The countdown phase of one climate tick: decrement every active
event's remaining duration; entries reaching zero are removed and
reported expired, in place. -/
def climate_countdown (s : ClimateState) : ClimateState × List ClimEvent :=
  let decremented := s.active_events.map (fun p => (p.1, p.2 - 1))
  let expired := (decremented.filter (fun p => p.2 ≤ 0)).map Prod.fst
  ({ s with active_events := decremented.filter (fun p => ¬ p.2 ≤ 0) },
   expired.map .EXPIRED)

/-- One tick of the climate engine: triggering first, then the countdown;
expiry and triggering can both occur in the same tick. -/
def climate_tick (s : ClimateState) (current_tick : Int) (draw : Bool)
    (choice : Option EventId) (fs : Option FsSnapshot) :
    ClimateState × List ClimEvent :=
  let ph := climate_trigger_phase s current_tick draw choice fs
  let cd := climate_countdown ph.1
  (cd.1, ph.2 ++ cd.2)

/-- `get_affected_regions`: targets of the currently active events. -/
def get_affected_regions (s : ClimateState) : List Code :=
  s.active_events.map (fun p => eventTarget p.1)

/-- `_step_climate`'s ledger effect: for each triggered event carrying an
impact report, overwrite the target's impacted resources with the
reported `after` values. -/
def applyClimateEvents (w : World) (events : List ClimEvent) : World :=
  events.foldl
    (fun w ev =>
      match ev with
      | .TRIGGERED _ target _ (some rpt) =>
        rpt.impacts.foldl (fun w p => setResource w target p.1 p.2.after) w
      | _ => w)
    w

/- ── FinOps reports and advisory proposals (external interfaces) ── -/

/-- A surplus entry of a FinOps report. -/
structure SurplusInfo where
  amount_available : Int
deriving DecidableEq

/-- A deficit entry of a FinOps report. -/
structure DeficitInfo where
  priority_score : ℚ
deriving DecidableEq

/-- One trade recommendation of a FinOps report.  `offer_resource` and
`request_resource` are `none` for the falsy empty string. -/
structure TradeRecommendation where
  is_trade_action : Bool
  offer_resource : Option Res
  request_resource : Option Res
  offer_amount : Int
  request_amount : Int
deriving DecidableEq

/-- The FinOps analysis result for one region (external capability). -/
structure Report where
  needs_governor : Bool
  health_score : ℚ
  deficits : List (Res × DeficitInfo)
  surpluses : List (Res × SurplusInfo)
  trade_recommendations : List TradeRecommendation
deriving DecidableEq

/-- The empty report a missing dict entry reads as. -/
def emptyReport : Report := ⟨false, 0, [], [], []⟩

/-- Association-list lookup for report dicts keyed by resource. -/
def resLookup {β : Type} (l : List (Res × β)) (k : Res) : Option β :=
  match l with
  | [] => none
  | (k1, v) :: rest => if k1 = k then some v else resLookup rest k

/-- A Governor trade proposal (advisory capability output). -/
structure Proposal where
  offering : List (Res × Int)
  requesting : List (Res × Int)
deriving DecidableEq

/-- The advisory negotiation oracle: may fail (raised exception). -/
def NegotiateOracle : Type := Code → Code → Except Unit Proposal

/- ── Step 6: governor decisions (`_step_governor_decisions`) ───── -/

/-- Python `max(items, key=priority_score)`: first maximal element wins. -/
def topDeficit (deficits : List (Res × DeficitInfo)) : Option (Res × DeficitInfo) :=
  match deficits with
  | [] => none
  | d :: rest =>
    some (rest.foldl (fun best x =>
      if best.2.priority_score < x.2.priority_score then x else best) d)

/-- Scan for the partner with the strictly largest available surplus of the
needed resource (first seen wins on ties), as in `_governor_negotiate`. -/
def bestPartner (reports : Code → Report) (c : Code) (needed : Res) :
    Option Code × Int :=
  STATE_CODES.foldl
    (fun acc other =>
      if other = c then acc
      else
        match resLookup (reports other).surpluses needed with
        | some info =>
          if acc.2 < info.amount_available then (some other, info.amount_available)
          else acc
        | none => acc)
    (none, 0)

/-- `_governor_negotiate`: pick the top deficit and best partner, ask the
advisory oracle, and on a valid proposal execute the trade; a raised
exception is caught and degrades to no action. -/
def governor_negotiate (negotiate : NegotiateOracle) (reports : Code → Report)
    (c : Code) (w : World) : World × Bool :=
  match topDeficit (reports c).deficits with
  | none => (w, false)
  | some top =>
    match bestPartner reports c top.1 with
    | (none, _) => (w, false)
    | (some partner, _) =>
      match negotiate c partner with
      | .error _ => (w, false)
      | .ok p =>
        if p.offering ≠ [] ∧ p.requesting ≠ [] then
          (execute_direct_trade c partner p.offering p.requesting w, true)
        else (w, false)

/-- Step 6 over all regions: a governor acts when the periodic interval
fires, its report flags attention, or its region is climate-affected. -/
def step_governor_decisions (negotiate : NegotiateOracle)
    (reports : Code → Report) (tickN : Int) (affected : List Code)
    (w : World) : World :=
  let invoke_all := tickN % LLM_PERIODIC_INTERVAL = 0
  STATE_CODES.foldl
    (fun w c =>
      if invoke_all ∨ (reports c).needs_governor = true ∨ affected.contains c then
        (governor_negotiate negotiate reports c w).1
      else w)
    w

/- ── Step 7: trade matching (`_step_trade_matching`) ───────────── -/

/-- One recommendation of one region: find the first other region whose
reported surplus covers the requested amount and execute at most one
trade for this recommendation. -/
def matchRecommendation (reports : Code → Report) (c : Code) (w : World)
    (r : TradeRecommendation) : World :=
  if r.is_trade_action then
    match r.offer_resource, r.request_resource with
    | some offerRes, some requestRes =>
      if 0 < r.offer_amount then
        let partner := STATE_CODES.find? (fun other =>
          decide (other ≠ c) &&
          match resLookup (reports other).surpluses requestRes with
          | some info => decide (r.request_amount ≤ info.amount_available)
          | none => false)
        match partner with
        | some other =>
          let available :=
            match resLookup (reports other).surpluses requestRes with
            | some info => info.amount_available
            | none => 0
          let actual := min r.request_amount available
          execute_direct_trade c other [(offerRes, r.offer_amount)]
            [(requestRes, actual)] w
        | none => w
      else w
    | _, _ => w
  else w

/-- Step 7 over all regions and all their recommendations. -/
def step_trade_matching (reports : Code → Report) (w : World) : World :=
  STATE_CODES.foldl
    (fun w c => (reports c).trade_recommendations.foldl
      (matchRecommendation reports c) w)
    w

/- ── Assembly tally (`parliament.py`, `convene_assembly`) ──────── -/

/-- The vote tally of one ballot item: yes-voter and no-voter lists. -/
structure Tally where
  yes_votes : List Code
  no_votes : List Code

/-- `yes_ratio` of a tally: zero when nobody voted. -/
def yesShare (t : Tally) : ℚ :=
  let total := t.yes_votes.length + t.no_votes.length
  if 0 < total then (t.yes_votes.length : ℚ) / (total : ℚ) else 0

/-- A ballot item passes iff its yes share reaches the majority fraction. -/
def proposalPasses (t : Tally) : Bool :=
  FEDERAL_ASSEMBLY_MAJORITY ≤ yesShare t

/- ── The tick pipeline (`WorldEnvironment.tick`, ledger view) ──── -/

/-- The oracle inputs one tick consumes: the FinOps reports, the advisory
negotiation outcomes, and the climate engine's random draw, selection and
persistence-side snapshot. -/
structure TickInputs where
  reports : Code → Report
  negotiate : NegotiateOracle
  climDraw : Bool
  climChoice : Option EventId
  climFs : Option FsSnapshot
  use_llm : Bool

/-- One tick of the orchestrator, restricted to the components that read
or mutate the ledger and the engine states (FinOps analysis and the
assembly mutate neither; persistence is write-only). -/
def tickLedger (inp : TickInputs) (tickN : Int) (w : World)
    (m : TreatyManagerState) (cs : ClimateState) :
    World × TreatyManagerState × ClimateState × List Migration :=
  let w1 := step_produce_consume w
  let w2 := step_apply_policies w1
  let t3 := step_enforce_treaties m w2 tickN
  let w3 := t3.2.1
  let c5 := climate_tick cs tickN inp.climDraw inp.climChoice inp.climFs
  let w4 := applyClimateEvents w3 c5.2
  let w5 :=
    if inp.use_llm then
      step_governor_decisions inp.negotiate inp.reports tickN
        (get_affected_regions c5.1) w4
    else w4
  let w6 := step_trade_matching inp.reports w5
  let m8 := step_migration w6
  let w8 := step_rewards m8.1
  (w8, t3.1, c5.1, m8.2)

/- ── The tick with failure semantics (`Except` view) ───────────── -/

/-- The produce/consume update of a single region. -/
def pcRegion (r : Region) : Region := { r with resources := newResourcesOf r }

/-- Iterate the produce/consume step on one region. -/
def pcIter : ℕ → Region → Region
  | 0, r => r
  | n + 1, r => pcIter n (pcRegion r)

/-- One climate tick driven by a packed input (tick number, random draw,
weighted selection, persistence snapshot). -/
def climTickAt (s : ClimateState)
    (inp : Int × Bool × Option EventId × Option FsSnapshot) :
    ClimateState × List ClimEvent :=
  climate_tick s inp.1 inp.2.1 inp.2.2.1 inp.2.2.2

/-- Iterate the climate engine over a stream of per-tick inputs. -/
def climIter (s : ClimateState)
    (stream : ℕ → Int × Bool × Option EventId × Option FsSnapshot) :
    ℕ → ClimateState
  | 0 => s
  | n + 1 => (climTickAt (climIter s stream n) (stream n)).1

/-- A neutral region used to build concrete test worlds. -/
def baseRegion : Region where
  resources := fun _ => 0
  resource_generation_rates := fun _ => 0
  resource_consumption_rates := fun _ => 0
  internal_policies := ⟨0, 0⟩
  gdp_score := 0
  welfare_score := 50
  trust_score := 100
  population := 0
  demographics := ⟨1/2, 0, 0⟩

/-- Region A of the end-to-end seed: water 1000, generation −50,
consumption 100. -/
def regionA : Region :=
  { baseRegion with
    resources := fun r => if r = .water then 1000 else 0
    resource_generation_rates := fun r => if r = .water then -50 else 0
    resource_consumption_rates := fun r => if r = .water then 100 else 0 }

/-- Region B of the end-to-end seed: water 1000, generation 50,
consumption 50. -/
def regionB : Region :=
  { baseRegion with
    resources := fun r => if r = .water then 1000 else 0
    resource_generation_rates := fun r => if r = .water then 50 else 0
    resource_consumption_rates := fun r => if r = .water then 50 else 0 }

/-- A world with every region neutral and concrete populations. -/
def worldFlat : World := fun _ => baseRegion

/-- A concrete climate-engine state with one active event
(`Drought_RJ`, three ticks remaining). -/
def climStateDrought : ClimateState := ⟨0, [(.Drought_RJ, 3)]⟩

/-- An empty treaty-manager state. -/
def tmEmpty : TreatyManagerState := ⟨[], [], 0⟩

/-- A concrete world for the migration race: `PB` and `MH` sit below the
welfare threshold, `TN` holds the strictly highest welfare score, so both
deficit regions pick `TN` within the same tick. -/
def worldRace : World := fun c =>
  match c with
  | .PB => { baseRegion with welfare_score := 20, population := 1000 }
  | .MH => { baseRegion with welfare_score := 30, population := 500 }
  | .TN => { baseRegion with welfare_score := 80, population := 2000 }
  | _ => { baseRegion with welfare_score := 50, population := 100 }

/-- Two regions agreeing on resources, population and demographics but
differing elsewhere (first of the pair). -/
def regionScoreA : Region := { baseRegion with trust_score := 10 }

/-- Second of the pair: same scoring inputs, different stored scores. -/
def regionScoreB : Region :=
  { baseRegion with trust_score := 90, gdp_score := 7, welfare_score := 1 }

/-- A world holding 60 water in `PB` and nothing anywhere else. -/
def worldSixty : World := fun c =>
  if c = .PB then
    { baseRegion with resources := fun r => if r = .water then 60 else 0 }
  else baseRegion

/-- A treaty promising 100 water per tick from `PB` to `MH`, with no
counter-obligation. -/
def treatyWater : Treaty := ⟨1, .PB, .MH, [(.water, 100)], [], 20, 20, true, [], 0⟩

/-- An enforcement result with no breach. -/
def resultHonor : EnforceResult := ⟨1, .PB, .MH, [⟨.PB, .MH, .water, 5⟩], []⟩

/-- An enforcement result in which `PB` breached. -/
def resultBreach : EnforceResult := ⟨2, .PB, .MH, [], [⟨.PB, .water, 40⟩]⟩

/-- An advisory oracle that always raises. -/
def negotiateFail : NegotiateOracle := fun _ _ => .error ()

/-- Neutral tick-oracle inputs: empty reports, failing advisory calls, no
climate draw. -/
def inputsQuiet : TickInputs :=
  ⟨fun _ => emptyReport, negotiateFail, false, none, none, true⟩

/-- A concrete enforcement fold state over `worldFlat`. -/
def legStateFlat : LegState := ⟨worldFlat, [], [], []⟩

/-- The sum of population over all regions. -/
def popSum (w : World) : Int := ∑ c : Code, (w c).population

/-- Every stored resource quantity of every region is non-negative. -/
def NonnegW (w : World) : Prop := ∀ c res, 0 ≤ (w c).resources res

/-- Every obligation amount of every active treaty is non-negative (the
data model's amounts). -/
def TreatiesOK (m : TreatyManagerState) : Prop :=
  ∀ t ∈ m.active_treaties,
    (∀ p ∈ t.per_tick_offer, 0 ≤ p.2) ∧ (∀ p ∈ t.per_tick_request, 0 ≤ p.2)

/-- Every successful advisory proposal carries non-negative amounts. -/
def OracleOK (negotiate : NegotiateOracle) : Prop :=
  ∀ a b p, negotiate a b = .ok p →
    (∀ x ∈ p.offering, 0 ≤ x.2) ∧ (∀ x ∈ p.requesting, 0 ≤ x.2)

/-- Every reported trade recommendation requests a non-negative amount. -/
def ReportsOK (reports : Code → Report) : Prop :=
  ∀ c, ∀ tr ∈ (reports c).trade_recommendations, 0 ≤ tr.request_amount

/-!  ## Theorems  -/

/- ── Association-list dict lemmas ──────────────────────────────── -/

theorem dictGet_some_mem {l : List (EventId × Int)} {e : EventId} {d : Int}
    (h : dictGet l e = some d) : e ∈ l.map Prod.fst := by
  induction l with
  | nil => simp [dictGet] at h
  | cons p rest ih =>
    rw [dictGet] at h
    by_cases hp : p.1 = e
    · simp [hp]
    · rw [if_neg hp] at h
      simp [ih h]

theorem dictGet_eq_none_of_not_mem {l : List (EventId × Int)} {e : EventId}
    (h : e ∉ l.map Prod.fst) : dictGet l e = none := by
  induction l with
  | nil => rfl
  | cons p rest ih =>
    simp only [List.map_cons, List.mem_cons] at h
    push_neg at h
    rw [dictGet, if_neg (Ne.symm h.1)]
    exact ih h.2

theorem dictSet_keys_of_mem {l : List (EventId × Int)} {e : EventId} {v : Int}
    (h : e ∈ l.map Prod.fst) :
    (dictSet l e v).map Prod.fst = l.map Prod.fst := by
  rw [dictSet, if_pos]
  · rw [List.map_map]
    apply List.map_congr_left
    intro p _
    by_cases hp : p.1 = e
    · simp [hp]
    · simp [hp]
  · exact List.elem_iff.mpr h

theorem dictGet_mapReplace {e : EventId} {v : Int} :
    ∀ {l : List (EventId × Int)}, e ∈ l.map Prod.fst →
      dictGet (l.map (fun p => if p.1 = e then (e, v) else p)) e = some v := by
  intro l
  induction l with
  | nil => intro h; simp at h
  | cons p rest ih =>
    intro h
    simp only [List.map_cons, List.mem_cons] at h
    by_cases hp : p.1 = e
    · rw [List.map_cons, if_pos hp, dictGet, if_pos rfl]
    · rw [List.map_cons, if_neg hp, dictGet, if_neg hp]
      rcases h with h | h
      · exact absurd h.symm hp
      · exact ih h

theorem dictGet_dictSet_self_of_mem {l : List (EventId × Int)} {e : EventId}
    {v : Int} (h : e ∈ l.map Prod.fst) :
    dictGet (dictSet l e v) e = some v := by
  rw [dictSet, if_pos (List.elem_iff.mpr h)]
  exact dictGet_mapReplace h

/- ── C2: the two-region produce/consume end-to-end run ─────────── -/

/-- C2 counterexample: with the code's own update rule
`new = max(0, current + generation − consumption)`, region B (water 1000,
generation 50, consumption 50) still holds 1000 water after 10 ticks, not
the 1500 the claim states. -/
theorem produce_consume_ten_ticks_B_counterexample :
    (pcIter 10 regionB).resources Res.water = 1000 ∧
    (pcIter 10 regionB).resources Res.water ≠ 1500 := by
  constructor
  · decide
  · decide

/-- C2 (amended): the per-tick update is
`new = max(0, current + generation − consumption)` per resource and
region; seeding A (water 1000, gen −50, con 100) and B (water 1000,
gen 50, con 50) gives A 850 and B 1000 after one tick, and A 0 (clamped,
not negative) and B 1000 after 10 ticks. -/
theorem produce_consume_two_region_run :
    (∀ w c, step_produce_consume w c = pcRegion (w c)) ∧
    (∀ r res, (pcRegion r).resources res =
      max 0 (r.resources res + r.resource_generation_rates res
               - r.resource_consumption_rates res)) ∧
    (pcIter 1 regionA).resources Res.water = 850 ∧
    (pcIter 1 regionB).resources Res.water = 1000 ∧
    (pcIter 10 regionA).resources Res.water = 0 ∧
    (pcIter 10 regionB).resources Res.water = 1000 := by
  refine ⟨fun w c => rfl, fun r res => rfl, by decide, by decide, by decide, by decide⟩

/- ── C8: assembly majority tally ───────────────────────────────── -/

/-- C8: a ballot item passes iff `yes / (yes + no)` is at least the
configured majority fraction (0.6); a 6-yes/4-no tally passes (the share
is exactly 0.6) and a 5-yes/5-no tally fails. -/
theorem assembly_majority_tally :
    (∀ t : Tally, proposalPasses t = true ↔
      FEDERAL_ASSEMBLY_MAJORITY ≤ (t.yes_votes.length : ℚ) /
        ((t.yes_votes.length : ℚ) + (t.no_votes.length : ℚ))) ∧
    proposalPasses ⟨[.PB, .MH, .TN, .KA, .GJ, .UP], [.BR, .WB, .RJ, .MP]⟩ = true ∧
    proposalPasses ⟨[.PB, .MH, .TN, .KA, .GJ], [.UP, .BR, .WB, .RJ, .MP]⟩ = false := by
  refine ⟨?_,
    by norm_num [proposalPasses, yesShare, FEDERAL_ASSEMBLY_MAJORITY],
    by norm_num [proposalPasses, yesShare, FEDERAL_ASSEMBLY_MAJORITY]⟩
  intro t
  rw [proposalPasses, decide_eq_true_eq, yesShare]
  by_cases h : 0 < t.yes_votes.length + t.no_votes.length
  · rw [if_pos h]
    push_cast
    rfl
  · rw [if_neg h]
    have h1 : t.yes_votes.length = 0 := by omega
    have h2 : t.no_votes.length = 0 := by omega
    rw [h1, h2]
    norm_num [FEDERAL_ASSEMBLY_MAJORITY]

/- ── C6: force-triggering an already-active event ──────────────── -/

/-- C6 counterexample: with `Drought_RJ` active at 3 remaining ticks,
`force_trigger` is not rejected — it re-registers the event and resets
the stored remaining duration to the catalog value 10, modifying the
existing entry. -/
theorem force_trigger_active_counterexample :
    dictGet climStateDrought.active_events .Drought_RJ = some 3 ∧
    dictGet (force_trigger climStateDrought .Drought_RJ none).1.active_events
      .Drought_RJ = some 10 ∧
    (10 : Int) ≠ 3 ∧
    (force_trigger climStateDrought .Drought_RJ none).2 =
      ClimEvent.TRIGGERED .Drought_RJ .RJ 10 none := by
  refine ⟨by decide, by decide, by decide, by decide⟩

/-- C6 (amended): force-triggering an already-active event adds no
duplicate entry (the key list of `active_events` is unchanged), but the
call is not rejected: the existing entry's remaining duration is reset to
the catalog duration. -/
theorem force_trigger_active_resets_duration (s : ClimateState) (e : EventId)
    (d : Int) (fs : Option FsSnapshot)
    (h : dictGet s.active_events e = some d) :
    ((force_trigger s e fs).1.active_events.map Prod.fst
        = s.active_events.map Prod.fst) ∧
    dictGet (force_trigger s e fs).1.active_events e = some (eventDuration e) := by
  have hmem : e ∈ s.active_events.map Prod.fst := dictGet_some_mem h
  constructor
  · exact dictSet_keys_of_mem hmem
  · exact dictGet_dictSet_self_of_mem hmem

/-- Witness for the amended C6 theorem at the concrete drought state. -/
theorem force_trigger_active_resets_duration_witness :
    dictGet climStateDrought.active_events .Drought_RJ = some 3 ∧
    ((force_trigger climStateDrought .Drought_RJ none).1.active_events.map
        Prod.fst = climStateDrought.active_events.map Prod.fst) ∧
    dictGet (force_trigger climStateDrought .Drought_RJ none).1.active_events
      .Drought_RJ = some (eventDuration .Drought_RJ) :=
  ⟨by decide,
   force_trigger_active_resets_duration climStateDrought .Drought_RJ 3 none (by decide)⟩

/- ── C9: the scoring step is a pure function of its inputs ─────── -/

/-- C9: the stored `gdp_score` and `welfare_score` are the pure formulas
`gdpOf`/`welfareOf` of the pre-state, and those formulas depend only on
the region's resources, population and demographics — so recomputing on
an unchanged ledger yields identical scores for every region. -/
theorem rewards_recompute_pure :
    (∀ w c, (step_rewards w c).gdp_score = gdpOf (w c) ∧
      (step_rewards w c).welfare_score = welfareOf (w c)) ∧
    (∀ r₁ r₂ : Region, r₁.resources = r₂.resources →
      r₁.population = r₂.population → r₁.demographics = r₂.demographics →
      gdpOf r₁ = gdpOf r₂ ∧ welfareOf r₁ = welfareOf r₂) ∧
    (∀ w₁ w₂ c, (w₁ c).resources = (w₂ c).resources →
      (w₁ c).population = (w₂ c).population →
      (w₁ c).demographics = (w₂ c).demographics →
      (step_rewards w₁ c).gdp_score = (step_rewards w₂ c).gdp_score ∧
      (step_rewards w₁ c).welfare_score = (step_rewards w₂ c).welfare_score) := by
  have hpure : ∀ r₁ r₂ : Region, r₁.resources = r₂.resources →
      r₁.population = r₂.population → r₁.demographics = r₂.demographics →
      gdpOf r₁ = gdpOf r₂ ∧ welfareOf r₁ = welfareOf r₂ := by
    intro r₁ r₂ h1 h2 h3
    constructor
    · simp only [gdpOf, h1, h2, h3]
    · simp only [welfareOf, h1, h3]
  refine ⟨fun w c => ⟨rfl, rfl⟩, hpure, ?_⟩
  intro w₁ w₂ c h1 h2 h3
  exact hpure (w₁ c) (w₂ c) h1 h2 h3

/-- Witness for C9: two regions that agree on resources, population and
demographics but hold different stored scores get identical recomputed
scores. -/
theorem rewards_recompute_pure_witness :
    gdpOf regionScoreA = gdpOf regionScoreB ∧
    welfareOf regionScoreA = welfareOf regionScoreB :=
  rewards_recompute_pure.2.1 regionScoreA regionScoreB rfl rfl rfl

/- ── C3: treaty breach yields no partial delivery ──────────────── -/

/-- C3: whenever the delivering party's available stock is strictly below
the promised amount, enforcing that item records exactly one breach with
shortfall = promised − available and leaves both parties' stocks
untouched; for a treaty whose only obligation is that one item, the whole
enforcement returns the world unchanged with that single breach. -/
theorem treaty_breach_no_partial_delivery :
    (∀ giver receiver tickN s resource amount,
      (s.world giver).resources resource < amount →
      enforceItem giver receiver tickN s (resource, amount) =
        { s with
          rbreaches := s.rbreaches ++
            [⟨giver, resource, amount - (s.world giver).resources resource⟩]
          tbreaches := s.tbreaches ++
            [⟨tickN, giver, resource, amount, (s.world giver).resources resource⟩] }) ∧
    (∀ t w tickN resource amount,
      t.per_tick_offer = [(resource, amount)] → t.per_tick_request = [] →
      (w t.from_region).resources resource < amount →
      enforce_single t w tickN =
        (w,
         ⟨t.treaty_id, t.from_region, t.to_region, [],
          [⟨t.from_region, resource, amount - (w t.from_region).resources resource⟩]⟩,
         { t with breaches := t.breaches ++
             [⟨tickN, t.from_region, resource, amount,
               (w t.from_region).resources resource⟩] })) := by
  have hitem : ∀ giver receiver tickN s resource amount,
      (s.world giver).resources resource < amount →
      enforceItem giver receiver tickN s (resource, amount) =
        { s with
          rbreaches := s.rbreaches ++
            [⟨giver, resource, amount - (s.world giver).resources resource⟩]
          tbreaches := s.tbreaches ++
            [⟨tickN, giver, resource, amount, (s.world giver).resources resource⟩] } := by
    intro giver receiver tickN s resource amount h
    simp only [enforceItem]
    rw [if_neg (not_le.mpr h)]
  refine ⟨hitem, ?_⟩
  intro t w tickN resource amount hoffer hreq h
  simp only [enforce_single, hoffer, hreq, List.foldl]
  rw [hitem t.from_region t.to_region tickN ⟨w, [], [], []⟩ resource amount h]
  simp

/-- Witness for C3: a treaty promising 100 water against a stock of 60
records one breach with shortfall 40 and moves no water. -/
theorem treaty_breach_no_partial_delivery_witness :
    enforce_single treatyWater worldSixty 1 =
      (worldSixty,
       ⟨1, .PB, .MH, [], [⟨.PB, .water, 40⟩]⟩,
       { treatyWater with breaches := [⟨1, .PB, .water, 100, 60⟩] }) ∧
    (worldSixty .PB).resources .water < 100 :=
  ⟨treaty_breach_no_partial_delivery.2 treatyWater worldSixty 1 .water 100
      rfl rfl (by decide),
   by decide⟩

/- ── C4: trust adjustments from enforcement results ────────────── -/

theorem bumpAdj_apply (adj : Code → Int) (c : Code) (v : Int) (x : Code) :
    bumpAdj adj c v x = adj x + (if x = c then v else 0) := by
  by_cases h : x = c
  · subst h
    simp [bumpAdj, Function.update]
  · simp [bumpAdj, Function.update, h]

theorem foldBreach_apply (l : List BreachRec) :
    ∀ (adj : Code → Int) (x : Code),
      (l.foldl (fun a b => bumpAdj a b.breacher (-TREATY_BREACH_TRUST_PENALTY)) adj) x
        = adj x - TREATY_BREACH_TRUST_PENALTY *
            ((l.map BreachRec.breacher).count x : ℤ) := by
  induction l with
  | nil => intro adj x; simp
  | cons b rest ih =>
    intro adj x
    rw [List.foldl_cons, ih, bumpAdj_apply]
    rw [List.map_cons, List.count_cons]
    by_cases h : x = b.breacher
    · rw [if_pos h, if_pos (by simpa using h.symm)]
      push_cast
      ring
    · rw [if_neg h, if_neg (by simpa using fun hh => h hh.symm)]
      push_cast
      ring

theorem applyResultAdj_apply (adj : Code → Int) (r : EnforceResult) (x : Code) :
    applyResultAdj adj r x = adj x + trustContribution r x := by
  by_cases h : r.rbreaches = []
  · simp only [applyResultAdj, trustContribution, if_pos h,
      bumpAdj_apply]
    ring
  · simp only [applyResultAdj, trustContribution, if_neg h,
      foldBreach_apply]
    ring

theorem calc_foldl_apply (results : List EnforceResult) :
    ∀ (adj : Code → Int) (x : Code),
      (results.foldl applyResultAdj adj) x =
        adj x + (results.map (fun r => trustContribution r x)).sum := by
  induction results with
  | nil => intro adj x; simp
  | cons r rest ih =>
    intro adj x
    rw [List.foldl_cons, ih, applyResultAdj_apply, List.map_cons, List.sum_cons]
    ring

/-- C4: trust adjustments decompose additively over the per-treaty
results; a result with no breach contributes a strictly positive bonus to
both parties (and nothing to anyone else); a result containing any breach
contributes non-positively to every region and strictly negatively
exactly to its breaching parties — partial honor earns no bonus. -/
theorem trust_adjustment_policy :
    (∀ results x, calculate_trust_adjustments results x =
      (results.map (fun r => trustContribution r x)).sum) ∧
    (∀ r : EnforceResult, r.rbreaches = [] →
      0 < trustContribution r r.from_region ∧
      0 < trustContribution r r.to_region ∧
      (∀ x, x ≠ r.from_region → x ≠ r.to_region → trustContribution r x = 0)) ∧
    (∀ r : EnforceResult, r.rbreaches ≠ [] →
      (∀ x, trustContribution r x ≤ 0) ∧
      (∀ x, trustContribution r x < 0 ↔
        x ∈ r.rbreaches.map BreachRec.breacher)) := by
  have hcontrib : ∀ (r : EnforceResult) (x : Code), r.rbreaches = [] →
      trustContribution r x = (if x = r.from_region then TREATY_HONOR_TRUST_BONUS else 0)
        + (if x = r.to_region then TREATY_HONOR_TRUST_BONUS else 0) := by
    intro r x h
    simp only [trustContribution, applyResultAdj, if_pos h, bumpAdj_apply]
    ring
  have hbr : ∀ (r : EnforceResult) (x : Code), r.rbreaches ≠ [] →
      trustContribution r x = -(TREATY_BREACH_TRUST_PENALTY *
        ((r.rbreaches.map BreachRec.breacher).count x : ℤ)) := by
    intro r x h
    simp only [trustContribution, applyResultAdj, if_neg h, foldBreach_apply]
    ring
  refine ⟨?_, ?_, ?_⟩
  · intro results x
    rw [calculate_trust_adjustments, calc_foldl_apply]
    ring
  · intro r h
    refine ⟨?_, ?_, ?_⟩
    · rw [hcontrib r _ h, if_pos rfl, TREATY_HONOR_TRUST_BONUS]
      split <;> omega
    · rw [hcontrib r _ h, if_pos rfl, TREATY_HONOR_TRUST_BONUS]
      split <;> omega
    · intro x h1 h2
      rw [hcontrib r x h, if_neg h1, if_neg h2]
      ring
  · intro r h
    constructor
    · intro x
      rw [hbr r x h, TREATY_BREACH_TRUST_PENALTY]
      have : (0 : ℤ) ≤ ((r.rbreaches.map BreachRec.breacher).count x : ℤ) := by
        positivity
      omega
    · intro x
      rw [hbr r x h, TREATY_BREACH_TRUST_PENALTY]
      rw [← List.count_pos_iff]
      omega

/-- Witness for C4: a breach-free result rewards both `PB` and `MH` and
nobody else; a result in which `PB` breached penalizes `PB` and not
`MH`. -/
theorem trust_adjustment_policy_witness :
    (0 < trustContribution resultHonor .PB ∧
     0 < trustContribution resultHonor .MH ∧
     trustContribution resultHonor .TN = 0) ∧
    (trustContribution resultBreach .PB < 0 ∧
     trustContribution resultBreach .MH ≤ 0 ∧
     ¬ trustContribution resultBreach .MH < 0) := by
  have h2 := trust_adjustment_policy.2.1 resultHonor rfl
  have h3 := trust_adjustment_policy.2.2 resultBreach (by decide)
  refine ⟨⟨h2.1, h2.2.1, h2.2.2 .TN (by decide) (by decide)⟩,
    ⟨(h3.2 .PB).mpr (by decide), h3.1 .MH, ?_⟩⟩
  rw [h3.2 .MH]
  decide

/- ── C10: climate event lifecycle timing ───────────────────────── -/

theorem eventDuration_ge_two (e : EventId) : 2 ≤ eventDuration e := by
  cases e <;> decide

theorem dictGet_isSome_of_mem {l : List (EventId × Int)} {e : EventId}
    (h : e ∈ l.map Prod.fst) : ∃ v, dictGet l e = some v := by
  induction l with
  | nil => simp at h
  | cons p rest ih =>
    simp only [List.map_cons, List.mem_cons] at h
    by_cases hp : p.1 = e
    · exact ⟨p.2, by rw [dictGet, if_pos hp]⟩
    · rcases h with h | h
      · exact absurd h.symm hp
      · obtain ⟨v, hv⟩ := ih h
        exact ⟨v, by rw [dictGet, if_neg hp]; exact hv⟩

theorem not_mem_of_dictGet_none {l : List (EventId × Int)} {e : EventId}
    (h : dictGet l e = none) : e ∉ l.map Prod.fst := by
  intro hmem
  obtain ⟨v, hv⟩ := dictGet_isSome_of_mem hmem
  rw [h] at hv
  exact Option.noConfusion hv

theorem dictSet_not_mem {l : List (EventId × Int)} {e : EventId} {v : Int}
    (h : e ∉ l.map Prod.fst) : dictSet l e v = l ++ [(e, v)] := by
  rw [dictSet, if_neg]
  intro hc
  exact h (List.elem_iff.mp hc)

theorem dictGet_append_left {l l2 : List (EventId × Int)} {e : EventId} {d : Int}
    (h : dictGet l e = some d) : dictGet (l ++ l2) e = some d := by
  induction l with
  | nil => simp [dictGet] at h
  | cons p rest ih =>
    rw [dictGet] at h
    rw [List.cons_append, dictGet]
    by_cases hp : p.1 = e
    · rwa [if_pos hp] at h ⊢
    · rw [if_neg hp] at h ⊢
      exact ih h

theorem dictGet_append_self {l : List (EventId × Int)} {e : EventId} {v : Int}
    (h : e ∉ l.map Prod.fst) : dictGet (l ++ [(e, v)]) e = some v := by
  induction l with
  | nil => simp [dictGet]
  | cons p rest ih =>
    simp only [List.map_cons, List.mem_cons] at h
    push_neg at h
    rw [List.cons_append, dictGet, if_neg (Ne.symm h.1)]
    exact ih h.2

theorem dictGet_mem {l : List (EventId × Int)} {e : EventId} {v : Int}
    (h : dictGet l e = some v) : (e, v) ∈ l := by
  induction l with
  | nil => simp [dictGet] at h
  | cons p rest ih =>
    rw [dictGet] at h
    by_cases hp : p.1 = e
    · rw [if_pos hp] at h
      obtain ⟨p1, p2⟩ := p
      cases hp
      cases h
      exact List.mem_cons_self _ _
    · rw [if_neg hp] at h
      exact List.mem_cons_of_mem p (ih h)

theorem dictGet_decrement {l : List (EventId × Int)} {e : EventId} :
    dictGet (l.map (fun p => (p.1, p.2 - 1))) e = (dictGet l e).map (· - 1) := by
  induction l with
  | nil => rfl
  | cons p rest ih =>
    rw [List.map_cons, dictGet, dictGet]
    by_cases hp : p.1 = e
    · rw [if_pos hp, if_pos hp]
      rfl
    · rw [if_neg hp, if_neg hp]
      exact ih

theorem keys_decrement (l : List (EventId × Int)) :
    (l.map (fun p => (p.1, p.2 - 1))).map Prod.fst = l.map Prod.fst := by
  rw [List.map_map]
  rfl

theorem keys_filter_sublist (l : List (EventId × Int)) (p : EventId × Int → Bool) :
    ((l.filter p).map Prod.fst).Sublist (l.map Prod.fst) :=
  (List.filter_sublist l).map Prod.fst

theorem dictGet_filter_pos {l : List (EventId × Int)} {e : EventId} {v : Int}
    {p : EventId × Int → Bool} (hnd : (l.map Prod.fst).Nodup)
    (h : dictGet l e = some v) (hp : p (e, v) = true) :
    dictGet (l.filter p) e = some v := by
  induction l with
  | nil => simp [dictGet] at h
  | cons q rest ih =>
    rw [List.map_cons, List.nodup_cons] at hnd
    rw [dictGet] at h
    by_cases hq : q.1 = e
    · rw [if_pos hq] at h
      have hqe : q = (e, v) := by
        obtain ⟨q1, q2⟩ := q
        cases hq
        cases h
        rfl
      rw [List.filter_cons, hqe, hp]
      simp [dictGet]
    · rw [if_neg hq] at h
      rw [List.filter_cons]
      by_cases hk : p q = true
      · rw [if_pos hk, dictGet, if_neg hq]
        exact ih hnd.2 h
      · rw [if_neg hk]
        exact ih hnd.2 h

theorem dictGet_filter_neg {l : List (EventId × Int)} {e : EventId} {v : Int}
    {p : EventId × Int → Bool} (hnd : (l.map Prod.fst).Nodup)
    (h : dictGet l e = some v) (hp : p (e, v) = false) :
    dictGet (l.filter p) e = none := by
  induction l with
  | nil => simp [dictGet] at h
  | cons q rest ih =>
    rw [List.map_cons, List.nodup_cons] at hnd
    rw [dictGet] at h
    by_cases hq : q.1 = e
    · rw [if_pos hq] at h
      have hqe : q = (e, v) := by
        obtain ⟨q1, q2⟩ := q
        cases hq
        cases h
        rfl
      rw [List.filter_cons, hqe, hp]
      apply dictGet_eq_none_of_not_mem
      intro hmem
      have he : e ∉ List.map Prod.fst rest := by
        rw [← hq]
        exact hnd.1
      exact he ((keys_filter_sublist rest p).subset hmem)
    · rw [if_neg hq] at h
      rw [List.filter_cons]
      by_cases hk : p q = true
      · rw [if_pos hk, dictGet, if_neg hq]
        exact ih hnd.2 h
      · rw [if_neg hk]
        exact ih hnd.2 h

theorem trigger_phase_preserves (s : ClimateState) (t : Int) (draw : Bool)
    (choice : Option EventId) (fs : Option FsSnapshot) (e : EventId) (d : Int)
    (hnd : (s.active_events.map Prod.fst).Nodup)
    (h : dictGet s.active_events e = some d) :
    (((climate_trigger_phase s t draw choice fs).1.active_events.map
        Prod.fst).Nodup) ∧
    dictGet (climate_trigger_phase s t draw choice fs).1.active_events e
      = some d := by
  rcases choice with _ | e'
  all_goals simp only [climate_trigger_phase]
  all_goals by_cases hc : CLIMATE_MIN_INTERVAL ≤ t - s.last_event_tick ∧ draw = true
  · rw [if_pos hc]
    exact ⟨hnd, h⟩
  · rw [if_neg hc]
    exact ⟨hnd, h⟩
  · rw [if_pos hc]
    by_cases h' : dictGet s.active_events e' = none
    · rw [if_pos h']
      have hmem' : e' ∉ s.active_events.map Prod.fst := not_mem_of_dictGet_none h'
      simp only [trigger_event, dictSet_not_mem hmem']
      constructor
      · rw [List.map_append]
        refine List.Nodup.append hnd (List.nodup_singleton _) ?_
        intro a ha hb
        simp only [List.map_cons, List.map_nil, List.mem_singleton] at hb
        exact hmem' (hb ▸ ha)
      · exact dictGet_append_left h
    · rw [if_neg h']
      exact ⟨hnd, h⟩
  · rw [if_neg hc]
    exact ⟨hnd, h⟩

theorem countdown_nodup (s : ClimateState)
    (hnd : (s.active_events.map Prod.fst).Nodup) :
    ((climate_countdown s).1.active_events.map Prod.fst).Nodup := by
  rw [climate_countdown]
  refine List.Nodup.sublist ?_ hnd
  have h1 := keys_filter_sublist (s.active_events.map (fun p => (p.1, p.2 - 1)))
    (fun p => ¬ p.2 ≤ 0)
  rw [keys_decrement] at h1
  exact h1

theorem climate_tick_step (s : ClimateState) (t : Int) (draw : Bool)
    (choice : Option EventId) (fs : Option FsSnapshot) (e : EventId) (d : Int)
    (hnd : (s.active_events.map Prod.fst).Nodup)
    (h : dictGet s.active_events e = some d) :
    (((climate_tick s t draw choice fs).1.active_events.map Prod.fst).Nodup) ∧
    (2 ≤ d → dictGet (climate_tick s t draw choice fs).1.active_events e
      = some (d - 1)) ∧
    (d ≤ 1 → dictGet (climate_tick s t draw choice fs).1.active_events e = none ∧
      ClimEvent.EXPIRED e ∈ (climate_tick s t draw choice fs).2) := by
  obtain ⟨hnd1, h1⟩ := trigger_phase_preserves s t draw choice fs e d hnd h
  set s1 := (climate_trigger_phase s t draw choice fs).1 with hs1
  have hdec : dictGet (s1.active_events.map (fun p => (p.1, p.2 - 1))) e
      = some (d - 1) := by
    rw [dictGet_decrement, h1]
    rfl
  have hnddec : ((s1.active_events.map (fun p => (p.1, p.2 - 1))).map
      Prod.fst).Nodup := by
    rw [keys_decrement]
    exact hnd1
  have hout : climate_tick s t draw choice fs =
      ((climate_countdown s1).1,
       (climate_trigger_phase s t draw choice fs).2 ++ (climate_countdown s1).2) := by
    rw [climate_tick]
  rw [hout]
  refine ⟨countdown_nodup s1 hnd1, ?_, ?_⟩
  · intro hd
    rw [climate_countdown]
    exact dictGet_filter_pos hnddec hdec (by simp; omega)
  · intro hd
    constructor
    · rw [climate_countdown]
      exact dictGet_filter_neg hnddec hdec (by simp; omega)
    · have hm : (e, d - 1) ∈ s1.active_events.map (fun p => (p.1, p.2 - 1)) :=
        dictGet_mem hdec
      have hmf : (e, d - 1) ∈ (s1.active_events.map
          (fun p => (p.1, p.2 - 1))).filter (fun p => p.2 ≤ 0) := by
        rw [List.mem_filter]
        exact ⟨hm, by simp; omega⟩
      apply List.mem_append_right
      rw [climate_countdown]
      have he : e ∈ ((s1.active_events.map
          (fun p => (p.1, p.2 - 1))).filter (fun p => p.2 ≤ 0)).map Prod.fst :=
        List.mem_map.mpr ⟨(e, d - 1), hmf, rfl⟩
      exact List.mem_map.mpr ⟨e, he, rfl⟩

theorem climIter_countdown
    (stream : ℕ → Int × Bool × Option EventId × Option FsSnapshot) (e : EventId) :
    ∀ (j : ℕ) (s : ClimateState) (d : Int),
      (s.active_events.map Prod.fst).Nodup →
      dictGet s.active_events e = some d →
      (j : Int) ≤ d - 1 →
      (((climIter s stream j).active_events.map Prod.fst).Nodup) ∧
      dictGet (climIter s stream j).active_events e = some (d - j) := by
  intro j
  induction j with
  | zero =>
    intro s d hnd h _
    simpa [climIter] using ⟨hnd, h⟩
  | succ n ih =>
    intro s d hnd h hj
    have hn : (n : Int) ≤ d - 1 := by
      push_cast at hj ⊢
      omega
    obtain ⟨hnd', h'⟩ := ih s d hnd h hn
    have hd2 : 2 ≤ d - n := by
      push_cast at hj
      omega
    obtain ⟨hndout, hsome, _⟩ := climate_tick_step (climIter s stream n)
      (stream n).1 (stream n).2.1 (stream n).2.2.1 (stream n).2.2.2 e (d - n)
      hnd' h'
    rw [climIter]
    refine ⟨hndout, ?_⟩
    rw [climTickAt, hsome hd2]
    congr 1
    push_cast
    ring

/-- C10: a climate event triggered via the normal tick path is itself
decremented in the triggering tick, so right after that tick its
remaining duration is the catalog duration minus one; after `j` further
ticks (any draws, selections and tick numbers) it stands at
`duration − 1 − j`; and during the tick that is `duration − 1` ticks
after the triggering tick it is removed and reported `EXPIRED` — it is
active for exactly its catalog duration of consecutive ticks counting
the trigger tick. -/
theorem climate_event_lifecycle (s0 : ClimateState) (T : Int) (e : EventId)
    (fs : Option FsSnapshot)
    (hnd : (s0.active_events.map Prod.fst).Nodup)
    (hna : dictGet s0.active_events e = none)
    (hsp : CLIMATE_MIN_INTERVAL ≤ T - s0.last_event_tick) :
    (ClimEvent.TRIGGERED e (eventTarget e) (eventDuration e)
        (fs.map triggerImpactReport) ∈ (climate_tick s0 T true (some e) fs).2) ∧
    dictGet (climate_tick s0 T true (some e) fs).1.active_events e
      = some (eventDuration e - 1) ∧
    (∀ stream, ∀ j : ℕ, (j : Int) ≤ eventDuration e - 2 →
      dictGet (climIter (climate_tick s0 T true (some e) fs).1 stream
          j).active_events e = some (eventDuration e - 1 - j)) ∧
    (∀ stream,
      ClimEvent.EXPIRED e ∈
        (climTickAt (climIter (climate_tick s0 T true (some e) fs).1 stream
          ((eventDuration e - 2).toNat)) (stream ((eventDuration e - 2).toNat))).2 ∧
      dictGet (climTickAt (climIter (climate_tick s0 T true (some e) fs).1 stream
          ((eventDuration e - 2).toNat))
          (stream ((eventDuration e - 2).toNat))).1.active_events e = none) := by
  have hmem0 : e ∉ s0.active_events.map Prod.fst := not_mem_of_dictGet_none hna
  have hphase : climate_trigger_phase s0 T true (some e) fs =
      ({ active_events := s0.active_events ++ [(e, eventDuration e)],
         last_event_tick := T },
       [ClimEvent.TRIGGERED e (eventTarget e) (eventDuration e)
          (fs.map triggerImpactReport)]) := by
    rw [climate_trigger_phase, if_pos ⟨hsp, rfl⟩, if_pos hna]
    simp only [trigger_event, dictSet_not_mem hmem0]
  have hnd1 : (((s0.active_events ++ [(e, eventDuration e)]).map
      Prod.fst)).Nodup := by
    rw [List.map_append]
    refine List.Nodup.append hnd (List.nodup_singleton _) ?_
    intro a ha hb
    simp only [List.map_cons, List.map_nil, List.mem_singleton] at hb
    exact hmem0 (hb ▸ ha)
  have h1 : dictGet (s0.active_events ++ [(e, eventDuration e)]) e
      = some (eventDuration e) := dictGet_append_self hmem0
  have htick : climate_tick s0 T true (some e) fs =
      ((climate_countdown ⟨T, s0.active_events ++ [(e, eventDuration e)]⟩).1,
       [ClimEvent.TRIGGERED e (eventTarget e) (eventDuration e)
          (fs.map triggerImpactReport)] ++
        (climate_countdown ⟨T, s0.active_events ++ [(e, eventDuration e)]⟩).2) := by
    rw [climate_tick, hphase]
  have hd2 := eventDuration_ge_two e
  have hnddec : (((s0.active_events ++ [(e, eventDuration e)]).map
      (fun p => (p.1, p.2 - 1))).map Prod.fst).Nodup := by
    rw [keys_decrement]
    exact hnd1
  have hdec : dictGet ((s0.active_events ++ [(e, eventDuration e)]).map
      (fun p => (p.1, p.2 - 1))) e = some (eventDuration e - 1) := by
    rw [dictGet_decrement, h1]
    rfl
  have hafter : dictGet (climate_tick s0 T true (some e) fs).1.active_events e
      = some (eventDuration e - 1) := by
    rw [htick]
    rw [climate_countdown]
    exact dictGet_filter_pos hnddec hdec (by simp; omega)
  have hndafter : ((climate_tick s0 T true (some e)
      fs).1.active_events.map Prod.fst).Nodup := by
    rw [htick]
    exact countdown_nodup _ hnd1
  refine ⟨?_, hafter, ?_, ?_⟩
  · rw [htick]
    exact List.mem_append_left _ (List.mem_singleton.mpr rfl)
  · intro stream j hj
    exact (climIter_countdown stream e j
      (climate_tick s0 T true (some e) fs).1 (eventDuration e - 1)
      hndafter hafter (by omega)).2
  · intro stream
    have hjn : ((((eventDuration e - 2).toNat) : ℕ) : Int) = eventDuration e - 2 :=
      Int.toNat_of_nonneg (by omega)
    obtain ⟨hndpre, hpre⟩ := climIter_countdown stream e
      ((eventDuration e - 2).toNat)
      (climate_tick s0 T true (some e) fs).1 (eventDuration e - 1)
      hndafter hafter (by omega)
    have hpre1 : dictGet (climIter (climate_tick s0 T true (some e) fs).1 stream
        ((eventDuration e - 2).toNat)).active_events e = some 1 := by
      rw [hpre]
      congr 1
      omega
    set n := (eventDuration e - 2).toNat with hn
    obtain ⟨_, _, hexp⟩ := climate_tick_step
      (climIter (climate_tick s0 T true (some e) fs).1 stream n)
      (stream n).1 (stream n).2.1 (stream n).2.2.1 (stream n).2.2.2 e 1
      hndpre hpre1
    obtain ⟨hnone, hmem⟩ := hexp (by omega)
    exact ⟨hmem, hnone⟩

/-- Witness for C10 at a concrete run: from a fresh engine, triggering
`Heatwave_UP` (catalog duration 5) at tick 1 leaves it with 4 remaining
ticks, and with no further draws it is reported expired during the 4th
tick after the trigger. -/
theorem climate_event_lifecycle_witness :
    dictGet (climate_tick climateInit 1 true (some .Heatwave_UP)
      none).1.active_events .Heatwave_UP = some 4 ∧
    ClimEvent.EXPIRED .Heatwave_UP ∈
      (climTickAt (climIter (climate_tick climateInit 1 true (some .Heatwave_UP)
          none).1 (fun _ => (0, false, none, none)) 3)
        ((fun _ => ((0 : Int), false, (none : Option EventId),
          (none : Option FsSnapshot))) 3)).2 := by
  have H := climate_event_lifecycle climateInit 1 .Heatwave_UP none
    List.nodup_nil rfl (by decide)
  exact ⟨H.2.1, (H.2.2.2 (fun _ => (0, false, none, none))).1⟩

/- ── C7: failure semantics of the delegated external calls ─────── -/

theorem foldl_preserve {α σ : Type _} (P : σ → Prop) (f : σ → α → σ) :
    ∀ (l : List α) (s : σ), (∀ s a, a ∈ l → P s → P (f s a)) → P s →
      P (l.foldl f s) := by
  intro l
  induction l with
  | nil => intro s _ hs; exact hs
  | cons a rest ih =>
    intro s hf hs
    rw [List.foldl_cons]
    exact ih (f s a) (fun s' a' ha' => hf s' a' (List.mem_cons_of_mem a ha'))
      (hf s a (List.mem_cons_self a rest) hs)

theorem foldl_world_pop {α : Type _} (f : World → α → World)
    (hf : ∀ w a x, ((f w a) x).population = (w x).population) :
    ∀ (l : List α) (w : World) (x : Code),
      ((l.foldl f w) x).population = (w x).population := by
  intro l
  induction l with
  | nil => intro w x; rfl
  | cons a rest ih =>
    intro w x
    rw [List.foldl_cons, ih, hf]

theorem setResource_population (w : World) (c : Code) (res : Res) (v : Int)
    (x : Code) : ((setResource w c res v) x).population = (w x).population := by
  by_cases hx : x = c
  · subst hx
    simp [setResource, updateRegion, Function.update_apply]
  · simp [setResource, updateRegion, Function.update_apply, hx]

theorem tradeGiveItem_population (src dst : Code) (w : World) (item : Res × Int)
    (x : Code) : ((tradeGiveItem src dst w item) x).population
      = (w x).population := by
  rw [tradeGiveItem]
  rw [setResource_population, setResource_population]

theorem execute_direct_trade_population (a b : Code)
    (off req : List (Res × Int)) (w : World) (x : Code) :
    ((execute_direct_trade a b off req w) x).population = (w x).population := by
  rw [execute_direct_trade]
  rw [foldl_world_pop _ (tradeGiveItem_population b a),
    foldl_world_pop _ (tradeGiveItem_population a b)]

theorem governor_negotiate_population (negotiate : NegotiateOracle)
    (reports : Code → Report) (c : Code) (w : World) (x : Code) :
    (((governor_negotiate negotiate reports c w).1) x).population
      = (w x).population := by
  rcases htop : topDeficit (reports c).deficits with _ | top
  · simp only [governor_negotiate, htop]
  · rcases hbp : bestPartner reports c top.1 with ⟨op, amt⟩
    rcases op with _ | partner
    · simp only [governor_negotiate, htop, hbp]
    · rcases hneg : negotiate c partner with _ | p
      · simp only [governor_negotiate, htop, hbp, hneg]
      · simp only [governor_negotiate, htop, hbp, hneg]
        by_cases hpe : p.offering ≠ [] ∧ p.requesting ≠ []
        · rw [if_pos hpe]
          exact execute_direct_trade_population c partner p.offering p.requesting w x
        · rw [if_neg hpe]

theorem step_governor_decisions_population (negotiate : NegotiateOracle)
    (reports : Code → Report) (tickN : Int) (affected : List Code) (w : World)
    (x : Code) :
    ((step_governor_decisions negotiate reports tickN affected w) x).population
      = (w x).population := by
  rw [step_governor_decisions]
  refine foldl_world_pop _ ?_ STATE_CODES w x
  intro w' c x'
  by_cases hc : tickN % LLM_PERIODIC_INTERVAL = 0 ∨
      (reports c).needs_governor = true ∨ affected.contains c
  · rw [if_pos hc]
    exact governor_negotiate_population negotiate reports c w' x'
  · rw [if_neg hc]

theorem matchRecommendation_population (reports : Code → Report) (c : Code)
    (w : World) (tr : TradeRecommendation) (x : Code) :
    ((matchRecommendation reports c w tr) x).population = (w x).population := by
  obtain ⟨ta, tor, trr, toa, tra⟩ := tr
  rw [matchRecommendation]
  rcases tor with _ | offerRes <;> rcases trr with _ | requestRes <;>
    dsimp only <;> repeat' split
  all_goals try rfl
  cases hpo : List.find? (fun other =>
      decide (other ≠ c) &&
      match resLookup (reports other).surpluses requestRes with
      | some info => decide (tra ≤ info.amount_available)
      | none => false) STATE_CODES with
  | none => rfl
  | some other => exact execute_direct_trade_population _ _ _ _ w x

theorem step_trade_matching_population (reports : Code → Report) (w : World)
    (x : Code) :
    ((step_trade_matching reports w) x).population = (w x).population := by
  rw [step_trade_matching]
  refine foldl_world_pop _ ?_ STATE_CODES w x
  intro w' c x'
  exact foldl_world_pop _ (matchRecommendation_population reports c) _ w' x'

theorem enforceItem_population (g r : Code) (tickN : Int) (s : LegState)
    (item : Res × Int) (x : Code) :
    (((enforceItem g r tickN s item).world) x).population
      = ((s.world) x).population := by
  rw [enforceItem]
  by_cases h : item.2 ≤ (s.world g).resources item.1
  · rw [if_pos h]
    rw [setResource_population, setResource_population]
  · rw [if_neg h]

theorem foldl_leg_population (g r : Code) (tickN : Int) :
    ∀ (l : List (Res × Int)) (s : LegState) (x : Code),
      (((l.foldl (enforceItem g r tickN) s).world) x).population
        = ((s.world) x).population := by
  intro l
  induction l with
  | nil => intro s x; rfl
  | cons a rest ih =>
    intro s x
    rw [List.foldl_cons, ih, enforceItem_population]

theorem enforce_single_population (t : Treaty) (w : World) (tickN : Int)
    (x : Code) :
    (((enforce_single t w tickN).1) x).population = (w x).population := by
  rw [enforce_single]
  rw [foldl_leg_population, foldl_leg_population]

theorem enforce_treaties_population (m : TreatyManagerState) (w : World)
    (tickN : Int) (x : Code) :
    (((enforce_treaties m w tickN).2.1) x).population = (w x).population := by
  rw [enforce_treaties]
  have : ∀ (l : List Treaty) (s : EnforceFold) (x : Code),
      (((l.foldl (enforceStep tickN) s).world) x).population
        = ((s.world) x).population := by
    intro l
    induction l with
    | nil => intro s x; rfl
    | cons t rest ih =>
      intro s x
      rw [List.foldl_cons, ih, enforceStep]
      by_cases ha : t.is_active = true
      · rw [if_pos ha]
        dsimp only
        split
        · exact enforce_single_population t s.world tickN x
        · exact enforce_single_population t s.world tickN x
      · rw [if_neg ha]
  exact this m.active_treaties ⟨w, [], [], []⟩ x

theorem step_enforce_treaties_population (m : TreatyManagerState) (w : World)
    (tickN : Int) (x : Code) :
    (((step_enforce_treaties m w tickN).2.1) x).population
      = (w x).population := by
  rw [step_enforce_treaties]
  by_cases h : m.active_treaties = []
  · rw [if_pos h]
  · rw [if_neg h]
    by_cases hx : (adjustedParties (enforce_treaties m w tickN).2.2).contains x
    · simp only [if_pos hx]
      exact enforce_treaties_population m w tickN x
    · simp only [if_neg hx]
      exact enforce_treaties_population m w tickN x

theorem applyClimateEvents_population (w : World) (events : List ClimEvent)
    (x : Code) :
    ((applyClimateEvents w events) x).population = (w x).population := by
  rw [applyClimateEvents]
  refine foldl_world_pop _ ?_ events w x
  intro w' ev x'
  rcases ev with ⟨e, target, dur, impact⟩ | e
  · rcases impact with _ | rpt
    · rfl
    · exact foldl_world_pop _ (fun w a x => setResource_population w target a.1
        a.2.after x) rpt.impacts w' x'
  · rfl

theorem popSum_congr {w₁ w₂ : World}
    (h : ∀ x, (w₁ x).population = (w₂ x).population) : popSum w₁ = popSum w₂ :=
  Finset.sum_congr rfl (fun x _ => h x)

theorem popSum_setPopulation (w : World) (c : Code) (v : Int) :
    popSum (setPopulation w c v) = popSum w + v - (w c).population := by
  have h : ∀ x, ((setPopulation w c v) x).population
      = Function.update (fun y => (w y).population) c v x := by
    intro x
    by_cases hx : x = c
    · subst hx
      simp [setPopulation, updateRegion, Function.update_apply]
    · simp [setPopulation, updateRegion, Function.update_apply, hx]
  rw [popSum, Finset.sum_congr rfl (fun x _ => h x),
    Finset.sum_update_of_mem (Finset.mem_univ c)]
  have hs : ∑ x ∈ Finset.univ \ {c}, (w x).population
      = (∑ x : Code, (w x).population) - ∑ x ∈ ({c} : Finset Code),
          (w x).population :=
    Finset.sum_sdiff_eq_sub (Finset.subset_univ {c})
  rw [hs, Finset.sum_singleton, popSum]
  ring

theorem step_migration_popSum (w : World) :
    popSum (step_migration w).1 = popSum w := by
  rw [step_migration]
  have := foldl_preserve (fun st : World × List Migration => popSum st.1 = popSum w)
    migrateOne STATE_CODES (w, []) ?_ rfl
  · exact this
  · intro st c _ hP
    by_cases h1 : (st.1 c).welfare_score < WELFARE_MIGRATION_THRESHOLD
    · simp only [migrateOne, if_pos h1]
      rcases hbd : bestDestination st.1 c with ⟨od, bw⟩
      rcases od with _ | d
      · exact hP
      · simp only
        by_cases h2 : (st.1 c).welfare_score < bw
        · rw [if_pos h2]
          by_cases h3 : 0 < pyInt (((st.1 c).population : ℚ) * MIGRATION_RATE)
          · rw [if_pos h3]
            simp only
            rw [popSum_setPopulation, popSum_setPopulation, hP]
            ring
          · rw [if_neg h3]
            exact hP
        · rw [if_neg h2]
          exact hP
    · simp only [migrateOne, if_neg h1]
      exact hP

/-- C5: the ledger's total population is conserved: migration moves
exactly the migrant count between its two regions, no other tick step
writes population, the composed tick preserves the global sum — and two
under-threshold regions can select the same destination in one tick. -/
theorem population_conserved :
    (∀ w, popSum (step_migration w).1 = popSum w) ∧
    (∀ w c, (step_produce_consume w c).population = (w c).population) ∧
    (∀ w c, (step_apply_policies w c).population = (w c).population) ∧
    (∀ m w tickN c, (((step_enforce_treaties m w tickN).2.1) c).population
      = (w c).population) ∧
    (∀ w events c, ((applyClimateEvents w events) c).population
      = (w c).population) ∧
    (∀ negotiate reports tickN affected w c,
      ((step_governor_decisions negotiate reports tickN affected w) c).population
        = (w c).population) ∧
    (∀ reports w c, ((step_trade_matching reports w) c).population
      = (w c).population) ∧
    (∀ w c, (step_rewards w c).population = (w c).population) ∧
    (∀ inp tickN w m cs, popSum (tickLedger inp tickN w m cs).1 = popSum w) ∧
    ((worldRace .PB).welfare_score < WELFARE_MIGRATION_THRESHOLD ∧
     (worldRace .MH).welfare_score < WELFARE_MIGRATION_THRESHOLD ∧
     Code.PB ≠ Code.MH ∧
     (bestDestination worldRace .PB).1 = some .TN ∧
     (bestDestination worldRace .MH).1 = some .TN) := by
  refine ⟨step_migration_popSum, fun w c => rfl, fun w c => rfl,
    step_enforce_treaties_population, applyClimateEvents_population,
    step_governor_decisions_population, step_trade_matching_population,
    fun w c => rfl, ?_, by decide, by decide, by decide, by decide, by decide⟩
  intro inp tickN w m cs
  rw [tickLedger]
  simp only
  rw [show ∀ w', popSum (step_rewards w') = popSum w' from
    fun w' => popSum_congr (fun x => rfl)]
  rw [step_migration_popSum]
  rw [popSum_congr (step_trade_matching_population inp.reports _)]
  by_cases hllm : inp.use_llm = true
  · rw [if_pos hllm]
    rw [popSum_congr (step_governor_decisions_population inp.negotiate
      inp.reports tickN _ _)]
    rw [popSum_congr (applyClimateEvents_population _ _)]
    rw [popSum_congr (step_enforce_treaties_population m _ tickN)]
    exact popSum_congr (fun x => rfl)
  · rw [if_neg hllm]
    rw [popSum_congr (applyClimateEvents_population _ _)]
    rw [popSum_congr (step_enforce_treaties_population m _ tickN)]
    exact popSum_congr (fun x => rfl)

/- ── C1: resource quantities never go negative ─────────────────── -/

theorem pyInt_nonneg {q : ℚ} (h : 0 ≤ q) : 0 ≤ pyInt q := by
  rw [pyInt, if_pos h]
  exact Int.floor_nonneg.mpr h

theorem foodSubsidyEffect_nonneg (fs : ℚ) (res : Res → Int)
    (h : ∀ x, 0 ≤ res x) : ∀ x, 0 ≤ foodSubsidyEffect fs res x := by
  intro x
  rw [foodSubsidyEffect]
  by_cases h1 : 0 < fs
  · rw [if_pos h1]
    rw [Function.update_apply]
    by_cases h2 : x = Res.energy
    · rw [if_pos h2]
      exact le_max_left 0 _
    · rw [if_neg h2, Function.update_apply]
      by_cases h3 : x = Res.food
      · rw [if_pos h3]
        refine add_nonneg (h .food) (pyInt_nonneg ?_)
        have hq : (0 : ℚ) ≤ (res Res.food : ℚ) := by
          exact_mod_cast h .food
        exact mul_nonneg (mul_nonneg hq (le_of_lt h1)) (by norm_num)
      · rw [if_neg h3]
        exact h x
  · rw [if_neg h1]
    exact h x

theorem waterTaxEffect_nonneg (wt : ℚ) (res : Res → Int)
    (h : ∀ x, 0 ≤ res x) : ∀ x, 0 ≤ waterTaxEffect wt res x := by
  intro x
  rw [waterTaxEffect]
  by_cases h1 : 0 < wt
  · rw [if_pos h1]
    rw [Function.update_apply]
    by_cases h2 : x = Res.water
    · rw [if_pos h2]
      refine add_nonneg (h .water) (pyInt_nonneg ?_)
      have hq : (0 : ℚ) ≤ (res Res.water : ℚ) := by
        exact_mod_cast h .water
      exact mul_nonneg (mul_nonneg hq (le_of_lt h1)) (by norm_num)
    · rw [if_neg h2]
      exact h x
  · rw [if_neg h1]
    exact h x

theorem setResource_nonneg {w : World} (c : Code) (res : Res) {v : Int}
    (hw : NonnegW w) (hv : 0 ≤ v) : NonnegW (setResource w c res v) := by
  intro c' r'
  by_cases hc : c' = c
  · subst hc
    by_cases hr : r' = res
    · subst hr
      simp [setResource, updateRegion, Function.update_apply, hv]
    · simp [setResource, updateRegion, Function.update_apply, hr]
      exact hw c' r'
  · simp [setResource, updateRegion, Function.update_apply, hc]
    exact hw c' r'

theorem tradeGiveItem_nonneg {w : World} (src dst : Code) {item : Res × Int}
    (hw : NonnegW w) (hitem : 0 ≤ item.2) :
    NonnegW (tradeGiveItem src dst w item) := by
  rw [tradeGiveItem]
  have hamt : 0 ≤ min item.2 ((w src).resources item.1) :=
    le_min hitem (hw src item.1)
  have hw1 : NonnegW (setResource w src item.1
      (max 0 ((w src).resources item.1 - min item.2 ((w src).resources item.1)))) :=
    setResource_nonneg _ _ hw (le_max_left 0 _)
  exact setResource_nonneg _ _ hw1 (add_nonneg (hw1 dst item.1) hamt)

theorem execute_direct_trade_nonneg (a b : Code) (off req : List (Res × Int))
    (w : World) (hw : NonnegW w) (hoff : ∀ x ∈ off, 0 ≤ x.2)
    (hreq : ∀ x ∈ req, 0 ≤ x.2) :
    NonnegW (execute_direct_trade a b off req w) := by
  rw [execute_direct_trade]
  refine foldl_preserve NonnegW _ req _ ?_
    (foldl_preserve NonnegW _ off w ?_ hw)
  · intro w' x hx hw'
    exact tradeGiveItem_nonneg b a hw' (hreq x hx)
  · intro w' x hx hw'
    exact tradeGiveItem_nonneg a b hw' (hoff x hx)

theorem enforceItem_nonneg (g r : Code) (tickN : Int) {s : LegState}
    {item : Res × Int} (hw : NonnegW s.world) (hitem : 0 ≤ item.2) :
    NonnegW (enforceItem g r tickN s item).world := by
  rw [enforceItem]
  by_cases h : item.2 ≤ (s.world g).resources item.1
  · rw [if_pos h]
    have hw1 : NonnegW (setResource s.world g item.1
        ((s.world g).resources item.1 - item.2)) :=
      setResource_nonneg _ _ hw (by omega)
    exact setResource_nonneg _ _ hw1 (add_nonneg (hw1 r item.1) hitem)
  · rw [if_neg h]
    exact hw

theorem foldl_leg_nonneg (g r : Code) (tickN : Int) :
    ∀ (l : List (Res × Int)) (s : LegState), (∀ p ∈ l, 0 ≤ p.2) →
      NonnegW s.world → NonnegW (l.foldl (enforceItem g r tickN) s).world := by
  intro l
  induction l with
  | nil => intro s _ hw; exact hw
  | cons a rest ih =>
    intro s hl hw
    rw [List.foldl_cons]
    exact ih _ (fun p hp => hl p (List.mem_cons_of_mem a hp))
      (enforceItem_nonneg g r tickN hw (hl a (List.mem_cons_self a rest)))

theorem enforce_single_nonneg (t : Treaty) (w : World) (tickN : Int)
    (hw : NonnegW w) (hoff : ∀ p ∈ t.per_tick_offer, 0 ≤ p.2)
    (hreq : ∀ p ∈ t.per_tick_request, 0 ≤ p.2) :
    NonnegW (enforce_single t w tickN).1 := by
  rw [enforce_single]
  exact foldl_leg_nonneg _ _ _ _ _ hreq (foldl_leg_nonneg _ _ _ _ _ hoff hw)

theorem enforce_treaties_nonneg (m : TreatyManagerState) (w : World)
    (tickN : Int) (hw : NonnegW w) (hm : TreatiesOK m) :
    NonnegW (enforce_treaties m w tickN).2.1 := by
  rw [enforce_treaties]
  have : ∀ (l : List Treaty), (∀ t ∈ l, (∀ p ∈ t.per_tick_offer, 0 ≤ p.2) ∧
      (∀ p ∈ t.per_tick_request, 0 ≤ p.2)) →
      ∀ (s : EnforceFold), NonnegW s.world →
      NonnegW (l.foldl (enforceStep tickN) s).world := by
    intro l
    induction l with
    | nil => intro _ s hw'; exact hw'
    | cons t rest ih =>
      intro hl s hw'
      rw [List.foldl_cons]
      refine ih (fun t' ht' => hl t' (List.mem_cons_of_mem t ht')) _ ?_
      rw [enforceStep]
      by_cases ha : t.is_active = true
      · rw [if_pos ha]
        dsimp only
        have hts := hl t (List.mem_cons_self t rest)
        split
        · exact enforce_single_nonneg t s.world tickN hw' hts.1 hts.2
        · exact enforce_single_nonneg t s.world tickN hw' hts.1 hts.2
      · rw [if_neg ha]
        exact hw'
  exact this m.active_treaties hm ⟨w, [], [], []⟩ hw

theorem step_enforce_treaties_nonneg (m : TreatyManagerState) (w : World)
    (tickN : Int) (hw : NonnegW w) (hm : TreatiesOK m) :
    NonnegW (step_enforce_treaties m w tickN).2.1 := by
  rw [step_enforce_treaties]
  by_cases h : m.active_treaties = []
  · rw [if_pos h]
    exact hw
  · rw [if_neg h]
    intro c r
    by_cases hx : (adjustedParties (enforce_treaties m w tickN).2.2).contains c
    · simp only [if_pos hx]
      exact enforce_treaties_nonneg m w tickN hw hm c r
    · simp only [if_neg hx]
      exact enforce_treaties_nonneg m w tickN hw hm c r

theorem triggerImpactReport_after_nonneg (fsd : FsSnapshot) :
    ∀ p ∈ (triggerImpactReport fsd).impacts, 0 ≤ p.2.after := by
  intro p hp
  rw [triggerImpactReport] at hp
  obtain ⟨q, _, heq⟩ := List.mem_map.mp hp
  rw [← heq]
  exact le_max_left 0 _

theorem trigger_phase_events (s : ClimateState) (t : Int) (dr : Bool)
    (ch : Option EventId) (fs : Option FsSnapshot) :
    (climate_trigger_phase s t dr ch fs).2 = [] ∨
    ∃ e', (climate_trigger_phase s t dr ch fs).2 =
      [ClimEvent.TRIGGERED e' (eventTarget e') (eventDuration e')
        (fs.map triggerImpactReport)] := by
  rcases ch with _ | e'
  all_goals simp only [climate_trigger_phase]
  all_goals by_cases hc : CLIMATE_MIN_INTERVAL ≤ t - s.last_event_tick ∧ dr = true
  · rw [if_pos hc]
    left
    rfl
  · rw [if_neg hc]
    left
    rfl
  · rw [if_pos hc]
    by_cases h' : dictGet s.active_events e' = none
    · rw [if_pos h']
      right
      exact ⟨e', rfl⟩
    · rw [if_neg h']
      left
      rfl
  · rw [if_neg hc]
    left
    rfl

theorem climate_tick_triggered_impacts (s : ClimateState) (t : Int) (dr : Bool)
    (ch : Option EventId) (fs : Option FsSnapshot) :
    ∀ e tgt dur rpt,
      ClimEvent.TRIGGERED e tgt dur (some rpt) ∈ (climate_tick s t dr ch fs).2 →
      ∀ p ∈ rpt.impacts, 0 ≤ p.2.after := by
  intro e tgt dur rpt hmem p hp
  have hsplit : climate_tick s t dr ch fs =
      ((climate_countdown (climate_trigger_phase s t dr ch fs).1).1,
       (climate_trigger_phase s t dr ch fs).2 ++
        (climate_countdown (climate_trigger_phase s t dr ch fs).1).2) := rfl
  rw [hsplit] at hmem
  rcases List.mem_append.mp hmem with hl | hr
  · rcases trigger_phase_events s t dr ch fs with hev | ⟨e', hev⟩
    · rw [hev] at hl
      simp at hl
    · rw [hev] at hl
      rw [List.mem_singleton] at hl
      rcases fs with _ | fsd
      · exact absurd hl (by simp)
      · have himp : some rpt = (Option.some fsd).map triggerImpactReport := by
          cases hl
          rfl
        simp only [Option.map] at himp
        have : rpt = triggerImpactReport fsd := by
          cases himp
          rfl
        rw [this] at hp
        exact triggerImpactReport_after_nonneg fsd p hp
  · rw [climate_countdown] at hr
    obtain ⟨a, _, heq⟩ := List.mem_map.mp hr
    exact absurd heq (by simp)

theorem applyClimateEvents_nonneg (w : World) (evs : List ClimEvent)
    (hw : NonnegW w)
    (hok : ∀ e tgt dur rpt, ClimEvent.TRIGGERED e tgt dur (some rpt) ∈ evs →
      ∀ p ∈ rpt.impacts, 0 ≤ p.2.after) :
    NonnegW (applyClimateEvents w evs) := by
  rw [applyClimateEvents]
  refine foldl_preserve NonnegW _ evs w ?_ hw
  intro w' ev hev hw'
  rcases ev with ⟨e, tgt, dur, impact⟩ | e
  · rcases impact with _ | rpt
    · exact hw'
    · refine foldl_preserve NonnegW _ rpt.impacts w' ?_ hw'
      intro w'' q hq hw''
      exact setResource_nonneg _ _ hw'' (hok e tgt dur rpt hev q hq)
  · exact hw'

theorem governor_negotiate_nonneg (negotiate : NegotiateOracle)
    (reports : Code → Report) (c : Code) (w : World) (hw : NonnegW w)
    (ho : OracleOK negotiate) :
    NonnegW (governor_negotiate negotiate reports c w).1 := by
  rcases htop : topDeficit (reports c).deficits with _ | top
  · simp only [governor_negotiate, htop]
    exact hw
  · rcases hbp : bestPartner reports c top.1 with ⟨op, amt⟩
    rcases op with _ | partner
    · simp only [governor_negotiate, htop, hbp]
      exact hw
    · rcases hneg : negotiate c partner with _ | p
      · simp only [governor_negotiate, htop, hbp, hneg]
        exact hw
      · simp only [governor_negotiate, htop, hbp, hneg]
        by_cases hpe : p.offering ≠ [] ∧ p.requesting ≠ []
        · rw [if_pos hpe]
          obtain ⟨h1, h2⟩ := ho c partner p hneg
          exact execute_direct_trade_nonneg c partner p.offering p.requesting w
            hw h1 h2
        · rw [if_neg hpe]
          exact hw

theorem step_governor_decisions_nonneg (negotiate : NegotiateOracle)
    (reports : Code → Report) (tickN : Int) (affected : List Code) (w : World)
    (hw : NonnegW w) (ho : OracleOK negotiate) :
    NonnegW (step_governor_decisions negotiate reports tickN affected w) := by
  rw [step_governor_decisions]
  refine foldl_preserve NonnegW _ STATE_CODES w ?_ hw
  intro w' c _ hw'
  by_cases hc : tickN % LLM_PERIODIC_INTERVAL = 0 ∨
      (reports c).needs_governor = true ∨ affected.contains c
  · rw [if_pos hc]
    exact governor_negotiate_nonneg negotiate reports c w' hw' ho
  · rw [if_neg hc]
    exact hw'

theorem matchRecommendation_nonneg (reports : Code → Report) (c : Code)
    (w : World) (tr : TradeRecommendation) (hw : NonnegW w)
    (htr : 0 ≤ tr.request_amount) :
    NonnegW (matchRecommendation reports c w tr) := by
  obtain ⟨ta, tor, trr, toa, tra⟩ := tr
  rw [matchRecommendation]
  dsimp only
  by_cases hta : ta = true
  · rw [if_pos hta]
    rcases tor with _ | offerRes
    · exact hw
    · rcases trr with _ | requestRes
      · exact hw
      · dsimp only
        by_cases htoa : 0 < toa
        · rw [if_pos htoa]
          cases hpo : List.find? (fun other =>
              decide (other ≠ c) &&
              match resLookup (reports other).surpluses requestRes with
              | some info => decide (tra ≤ info.amount_available)
              | none => false) STATE_CODES with
          | none => exact hw
          | some other =>
            have hp := List.find?_some hpo
            rcases hsl : resLookup (reports other).surpluses requestRes
              with _ | info
            · rw [hsl] at hp
              simp at hp
            · rw [hsl] at hp
              rw [Bool.and_eq_true] at hp
              have hle : tra ≤ info.amount_available := of_decide_eq_true hp.2
              have htra : (0 : Int) ≤ tra := htr
              refine execute_direct_trade_nonneg c other _ _ w hw ?_ ?_
              · intro x hx
                rw [List.mem_singleton] at hx
                rw [hx]
                exact le_of_lt htoa
              · intro x hx
                rw [List.mem_singleton] at hx
                rw [hx]
                dsimp only
                rw [hsl]
                exact le_min htra (le_trans htra hle)
        · rw [if_neg htoa]
          exact hw
  · rw [if_neg hta]
    exact hw

theorem step_trade_matching_nonneg (reports : Code → Report) (w : World)
    (hw : NonnegW w) (hr : ReportsOK reports) :
    NonnegW (step_trade_matching reports w) := by
  rw [step_trade_matching]
  refine foldl_preserve NonnegW _ STATE_CODES w ?_ hw
  intro w' c _ hw'
  refine foldl_preserve NonnegW _ (reports c).trade_recommendations w' ?_ hw'
  intro w'' tr htr hw''
  exact matchRecommendation_nonneg reports c w'' tr hw'' (hr c tr htr)

theorem setPopulation_resources (w : World) (c : Code) (v : Int) (x : Code) :
    ((setPopulation w c v) x).resources = (w x).resources := by
  by_cases hx : x = c
  · subst hx
    simp [setPopulation, updateRegion, Function.update_apply]
  · simp [setPopulation, updateRegion, Function.update_apply, hx]

theorem step_migration_resources (w : World) (c : Code) :
    ((step_migration w).1 c).resources = (w c).resources := by
  rw [step_migration]
  have := foldl_preserve
    (fun st : World × List Migration => ∀ x, (st.1 x).resources = (w x).resources)
    migrateOne STATE_CODES (w, []) ?_ (fun x => rfl)
  · exact this c
  · intro st c' _ hP
    by_cases h1 : (st.1 c').welfare_score < WELFARE_MIGRATION_THRESHOLD
    · simp only [migrateOne, if_pos h1]
      rcases hbd : bestDestination st.1 c' with ⟨od, bw⟩
      rcases od with _ | d
      · exact hP
      · simp only
        by_cases h2 : (st.1 c').welfare_score < bw
        · rw [if_pos h2]
          by_cases h3 : 0 < pyInt (((st.1 c').population : ℚ) * MIGRATION_RATE)
          · rw [if_pos h3]
            intro x
            simp only
            rw [setPopulation_resources, setPopulation_resources]
            exact hP x
          · rw [if_neg h3]
            exact hP
        · rw [if_neg h2]
          exact hP
    · simp only [migrateOne, if_neg h1]
      exact hP

/-- C1: every ledger mutation keeps every stored resource quantity
non-negative: produce/consume clamps at zero unconditionally; policies,
treaty deliveries, climate impacts and trades preserve non-negativity
(trade and treaty amounts being non-negative per the data model);
migration and the reward recompute do not touch resources; and the
composed tick maps a non-negative ledger to a non-negative ledger. -/
theorem resources_nonneg_invariant :
    (∀ w, NonnegW (step_produce_consume w)) ∧
    (∀ w, NonnegW w → NonnegW (step_apply_policies w)) ∧
    (∀ m w tickN, NonnegW w → TreatiesOK m →
      NonnegW (step_enforce_treaties m w tickN).2.1) ∧
    (∀ w s t dr ch fs, NonnegW w →
      NonnegW (applyClimateEvents w (climate_tick s t dr ch fs).2)) ∧
    (∀ a b off req w, NonnegW w → (∀ x ∈ off, 0 ≤ x.2) →
      (∀ x ∈ req, 0 ≤ x.2) → NonnegW (execute_direct_trade a b off req w)) ∧
    (∀ w c, ((step_migration w).1 c).resources = (w c).resources) ∧
    (∀ w c, (step_rewards w c).resources = (w c).resources) ∧
    (∀ inp tickN w m cs, NonnegW w → TreatiesOK m → OracleOK inp.negotiate →
      ReportsOK inp.reports → NonnegW (tickLedger inp tickN w m cs).1) := by
  have hpc : ∀ w, NonnegW (step_produce_consume w) := by
    intro w c r
    exact le_max_left 0 _
  have hpol : ∀ w, NonnegW w → NonnegW (step_apply_policies w) := by
    intro w hw c r'
    rw [step_apply_policies, applyPoliciesRegion]
    exact waterTaxEffect_nonneg _ _ (foodSubsidyEffect_nonneg _ _ (hw c)) r'
  have hclim : ∀ w s t dr ch fs, NonnegW w →
      NonnegW (applyClimateEvents w (climate_tick s t dr ch fs).2) := by
    intro w s t dr ch fs hw
    exact applyClimateEvents_nonneg w _ hw
      (climate_tick_triggered_impacts s t dr ch fs)
  refine ⟨hpc, hpol, step_enforce_treaties_nonneg, hclim,
    execute_direct_trade_nonneg, step_migration_resources, fun w c => rfl, ?_⟩
  intro inp tickN w m cs hw hm ho hr
  rw [tickLedger]
  dsimp only
  have h6 : NonnegW (step_trade_matching inp.reports
      (if inp.use_llm = true then
        step_governor_decisions inp.negotiate inp.reports tickN
          (get_affected_regions (climate_tick cs tickN inp.climDraw inp.climChoice
            inp.climFs).1)
          (applyClimateEvents (step_enforce_treaties m
            (step_apply_policies (step_produce_consume w)) tickN).2.1
            (climate_tick cs tickN inp.climDraw inp.climChoice inp.climFs).2)
      else
        applyClimateEvents (step_enforce_treaties m
          (step_apply_policies (step_produce_consume w)) tickN).2.1
          (climate_tick cs tickN inp.climDraw inp.climChoice inp.climFs).2)) := by
    refine step_trade_matching_nonneg inp.reports _ ?_ hr
    have h4 : NonnegW (applyClimateEvents (step_enforce_treaties m
        (step_apply_policies (step_produce_consume w)) tickN).2.1
        (climate_tick cs tickN inp.climDraw inp.climChoice inp.climFs).2) :=
      hclim _ _ _ _ _ _ (step_enforce_treaties_nonneg m _ tickN
        (hpol _ (hpc w)) hm)
    by_cases hllm : inp.use_llm = true
    · rw [if_pos hllm]
      exact step_governor_decisions_nonneg inp.negotiate inp.reports tickN _ _
        h4 ho
    · rw [if_neg hllm]
      exact h4
  intro c r
  rw [show ∀ w' c, (step_rewards w' c).resources = (w' c).resources from
    fun w' c => rfl]
  rw [step_migration_resources]
  exact h6 c r

/-- Witness for C1: a quiet tick on the all-zero ledger keeps every
resource quantity non-negative. -/
theorem resources_nonneg_invariant_witness :
    NonnegW (tickLedger inputsQuiet 1 worldFlat tmEmpty climateInit).1 ∧
    0 ≤ (((tickLedger inputsQuiet 1 worldFlat tmEmpty climateInit).1
      Code.PB).resources Res.water) := by
  have h := resources_nonneg_invariant.2.2.2.2.2.2.2 inputsQuiet 1 worldFlat
    tmEmpty climateInit (fun c r => le_refl 0)
    (fun t ht => absurd ht (List.not_mem_nil t))
    (fun a b p hp => absurd hp (by simp [inputsQuiet, negotiateFail]))
    (fun c tr htr => absurd htr (List.not_mem_nil tr))
  exact ⟨h, h Code.PB Res.water⟩

end Worldsim
